import Mathlib

/-! Cadence-TTS, the `speech` package and its HTTP handler.

A shallow embedding of `backend/internal/speech` (`models.go`, `helper.go`,
`service.go`) and of `HandleSynthesize` in `backend/cmd/api/routes.go`, and
theorems about them.

Conventions of the embedding

* A Go `string` and a Go `[]byte` are both finite byte sequences; a byte is a
  natural number below 256. The functions embedded here never compute with a
  byte except to compare it, so no reduction modulo 256 is needed, apart from
  the digit test of `strconv.Atoi`, where it is written out.
* A Go `error` is a tree (`GoError`); the `nil` error is `none`.
* A websocket connection is the list of results its future `ReadMessage`
  calls deliver; a function that reads from it returns the unread remainder
  next to its Go results, and returns `none` when the list is exhausted before
  the function returns (the peer stays silent and the call blocks).
-/

namespace Speech

/-! ## Bytes and strings -/

/-- A Go `[]byte`: a list of bytes, each a natural number below 256. -/
abbrev GoBytes := List Nat

/-- A Go `string`: an immutable sequence of bytes. -/
abbrev GoString := List Nat

/-- The bytes of an ASCII string literal of the source (every literal of the
package is ASCII, so a character is its own one-byte encoding). -/
def str (s : String) : GoString := s.toList.map (fun c => c.toNat)

/-- Go `bytes.HasPrefix` / `strings.HasPrefix`. -/
def HasPrefix : GoBytes → GoBytes → Bool
  | _, [] => true
  | [], _ :: _ => false
  | a :: s, b :: p => a == b && HasPrefix s p

/-- Go `strings.HasSuffix`: `len(s) >= len(suffix) && s[len(s)-len(suffix):] == suffix`. -/
def HasSuffix (s suffix : GoString) : Bool :=
  decide (suffix.length ≤ s.length) && (s.drop (s.length - suffix.length) == suffix)

/-- Go `strings.TrimSuffix`. -/
def TrimSuffix (s suffix : GoString) : GoString :=
  if HasSuffix s suffix then s.take (s.length - suffix.length) else s

/-- Go `bytes.Index`: the index of the first instance of `sep` in `s`, or
`none` for Go's `-1`. -/
def Index : GoBytes → GoBytes → Option Nat
  | [], sep => if sep = [] then some 0 else none
  | c :: s, sep =>
    if HasPrefix (c :: s) sep then some 0 else (Index s sep).map (· + 1)

/-- Go `bytes.Contains`: `Index(b, subslice) != -1`. -/
def Contains (b subslice : GoBytes) : Bool := (Index b subslice).isSome

/-- Go `bytes.SplitN(s, sep, 2)` for a non-empty `sep`: the part before the
first instance of `sep` and the part after it, or `s` alone when there is no
instance. -/
def SplitN2 (s sep : GoBytes) : List GoBytes :=
  match Index s sep with
  | some m => [s.take m, s.drop (m + sep.length)]
  | none => [s]

/-! ## Errors (`models.go`) -/

/-- The five package-level error variables of `models.go`. Each is created by
one `errors.New` call, so it is equal to itself only. -/
inductive ErrVar where
  | invalidInput
  | serviceFailure
  | networkFailure
  | synthesis
  | noAudio
  deriving DecidableEq, Repr

/-- A non-nil Go `error` value.
* `sentinel v`: one of the package-level variables;
* `errorString s`: a fresh `errors.New(s)` or a `fmt.Errorf` without `%w`;
* `wrapError msg err`: a `fmt.Errorf` with one `%w`, `msg` its formatted text;
* `joinError errs`: the result of `errors.Join` on the non-nil `errs`;
* `external msg closeCode`: an error made outside the package (transport,
  dialer, decoder) whose `Error()` is `msg`; `closeCode` is `some c` when it
  is a `*websocket.CloseError` with code `c`. -/
inductive GoError where
  | sentinel (v : ErrVar)
  | errorString (s : GoString)
  | wrapError (msg : GoString) (err : GoError)
  | joinError (errs : List GoError)
  | external (msg : GoString) (closeCode : Option Int)

/-- The text of a package-level error variable. -/
def ErrVar.text : ErrVar → GoString
  | .invalidInput => str "invalid input"
  | .serviceFailure => str "service failure"
  | .networkFailure => str "network failure"
  | .synthesis => str "synthesis error"
  | .noAudio => str "no audio data received"

def ErrInvalidInput : GoError := .sentinel .invalidInput
def ErrServiceFailure : GoError := .sentinel .serviceFailure
def ErrNetworkFailure : GoError := .sentinel .networkFailure
def ErrSynthesis : GoError := .sentinel .synthesis
def ErrNoAudio : GoError := .sentinel .noAudio

mutual
/-- Go `err.Error()`. A joined error prints its members separated by a
newline. -/
def GoError.Error : GoError → GoString
  | .sentinel v => v.text
  | .errorString s => s
  | .wrapError msg _ => msg
  | .joinError errs => GoError.ErrorJoin errs
  | .external msg _ => msg
/-- The body of `(*joinError).Error`. -/
def GoError.ErrorJoin : List GoError → GoString
  | [] => []
  | [e] => e.Error
  | e :: e2 :: es => e.Error ++ 10 :: GoError.ErrorJoin (e2 :: es)
end

mutual
/-- Go `errors.Is(err, target)` for `target` one of the package-level
variables: a depth-first search of the tree of `err`. -/
def GoError.Is : GoError → ErrVar → Bool
  | .sentinel v, target => v == target
  | .errorString _, _ => false
  | .wrapError _ err, target => err.Is target
  | .joinError errs, target => GoError.IsAny errs target
  | .external _ _, _ => false
/-- The search of `errors.Is` through the members of a joined error. -/
def GoError.IsAny : List GoError → ErrVar → Bool
  | [], _ => false
  | e :: es, target => e.Is target || GoError.IsAny es target
end

/-- Go `errors.Join(errs...)` on non-nil arguments: `nil` when there are none. -/
def Join (errs : List GoError) : Option GoError :=
  if errs.isEmpty then none else some (.joinError errs)

/-- Go `errors.New(text)`. -/
def New (text : GoString) : GoError := .errorString text

/-- Go `fmt.Errorf(format ++ "%s", arg)`: no wrapped error. -/
def Errorf_s (format arg : GoString) : GoError := .errorString (format ++ arg)

/-- Go `fmt.Errorf(format ++ "%w", err)`. -/
def Errorf_w (format : GoString) (err : GoError) : GoError :=
  .wrapError (format ++ err.Error) err

/-! ## Reading the response stream (`service.go`) -/

/-- Gorilla `websocket.TextMessage`. -/
def TextMessage : Int := 1

/-- Gorilla `websocket.BinaryMessage`. -/
def BinaryMessage : Int := 2

/-- Gorilla `websocket.CloseNormalClosure`. -/
def CloseNormalClosure : Int := 1000

/-- Gorilla `websocket.IsCloseError(err, codes...)`: `err` is a
`*websocket.CloseError` whose code is one of `codes`. -/
def IsCloseError (err : GoError) (codes : List Int) : Bool :=
  match err with
  | .external _ (some code) => codes.contains code
  | _ => false

/-- What one call of `c.ReadMessage()` returns: a frame, or an error. -/
inductive ReadResult where
  | message (messageType : Int) (message : GoBytes)
  | failure (err : GoError)

/-- A `*websocket.Conn` seen from the reader: the results of its future
`ReadMessage` calls, in order. -/
abbrev Conn := List ReadResult

/-- The Go results `([]byte, error)`; a `nil` slice is the empty list. -/
abbrev AudioResult := GoBytes × Option GoError

/-- The marker of an audio frame, `"Path:audio\r\n"`. -/
def audioMarker : GoBytes := str "Path:audio\r\n"

/-- The marker of the end of a turn, `"Path:turn.end"`. -/
def turnEndMarker : GoBytes := str "Path:turn.end"

/-- The marker of a service error, `"Path:error"`. -/
def errorMarker : GoBytes := str "Path:error"

/-- The statements after the `for` loop of `ReadAudioResponse`. -/
def afterLoop (audioBuffer : GoBytes) : AudioResult :=
  if audioBuffer.length = 0 then
    ([], some ErrNoAudio)
  else
    (audioBuffer, none)

/-- The `for` loop of `ReadAudioResponse` with `audioBuffer` as accumulator,
followed by the statements after it. `bytes.Buffer.Write` always returns a
nil error, so its error branch is not reachable and is left out. -/
def ReadAudioResponseFrom (audioBuffer : GoBytes) : Conn → Option (AudioResult × Conn)
  | [] => none
  | .failure err :: c =>
    if IsCloseError err [CloseNormalClosure] then
      some (afterLoop audioBuffer, c)
    else
      some (([], Join [ErrSynthesis, Errorf_w (str "failed to read message: ") err]), c)
  | .message messageType message :: c =>
    if messageType = BinaryMessage then
      if Contains message audioMarker then
        let audioData := (SplitN2 message audioMarker).getD 1 []
        ReadAudioResponseFrom (audioBuffer ++ audioData) c
      else
        ReadAudioResponseFrom audioBuffer c
    else if Contains message turnEndMarker then
      some ((audioBuffer, none), c)
    else if Contains message errorMarker then
      some (([], Join [ErrSynthesis, Errorf_s (str "service error: ") message]), c)
    else
      ReadAudioResponseFrom audioBuffer c

/-- Go `ReadAudioResponse(c)`: the results, and the part of the connection
left unread. -/
def ReadAudioResponse (c : Conn) : Option (AudioResult × Conn) :=
  ReadAudioResponseFrom [] c

/-- The bytes one read result adds to the audio buffer: for a binary frame
that contains the audio marker, what `SplitN` leaves after it. -/
def audioOf : ReadResult → GoBytes
  | .message messageType message =>
    if messageType = BinaryMessage ∧ Contains message audioMarker = true then
      (SplitN2 message audioMarker).getD 1 []
    else []
  | .failure _ => []

/-- The audio buffer after the read results `rs`, starting from an empty one. -/
def audioOfAll (rs : List ReadResult) : GoBytes := (rs.map audioOf).flatten

/-- A read result after which the loop reads on: a binary frame, or another
frame that contains neither the turn-end marker nor the error marker. -/
def keepsReading : ReadResult → Bool
  | .message messageType message =>
    messageType == BinaryMessage ||
      (!Contains message turnEndMarker && !Contains message errorMarker)
  | .failure _ => false

/-- The sequence `sep` occurs in `m` right after `p`, and nowhere earlier. -/
def FirstOccurrence (m sep p : GoBytes) : Prop :=
  (∃ s, m = p ++ sep ++ s) ∧ ∀ p2 s2, m = p2 ++ sep ++ s2 → p.length ≤ p2.length

/-- The payload `b` of a binary frame `m` in the words of the specification:
the bytes after the first occurrence of the audio marker, and nothing when the
marker does not occur. -/
def IsPayload (m b : GoBytes) : Prop :=
  (∃ p, m = p ++ audioMarker ++ b ∧ FirstOccurrence m audioMarker p) ∨
  ((∀ p s, m ≠ p ++ audioMarker ++ s) ∧ b = [])

/-! ## Regular expressions and number parsing used by `ValidateNumbers` -/

/-- The part of Go's regular-expression syntax that the pattern of
`ValidateNumbers` uses. The pattern is pure ASCII, so matching bytes is the
same as matching runes. -/
inductive Regexp where
  | empty
  | byte (b : Nat)
  | digit
  | cat (r s : Regexp)
  | alt (r s : Regexp)

/-- Every way `r` can match at the start of `s`, as the list of what is left
of `s` after the match. -/
def Regexp.rests : Regexp → GoString → List GoString
  | .empty, s => [s]
  | .byte _, [] => []
  | .byte b, c :: s => if c = b then [s] else []
  | .digit, [] => []
  | .digit, c :: s => if 48 ≤ c ∧ c ≤ 57 then [s] else []
  | .cat r1 r2, s => (r1.rests s).flatMap r2.rests
  | .alt r1 r2, s => r1.rests s ++ r2.rests s

/-- The regular expression `r?`. -/
def Regexp.opt (r : Regexp) : Regexp := .alt r .empty

/-- The regular expression `r{1,3}`, which is `r(r(r)?)?`. -/
def Regexp.rep13 (r : Regexp) : Regexp := .cat r (Regexp.opt (.cat r (Regexp.opt r)))

/-- A string without regular-expression metacharacters, as a pattern. -/
def Regexp.lit : GoString → Regexp
  | [] => .empty
  | b :: s => .cat (.byte b) (Regexp.lit s)

/-- Go `regexp.MustCompile("^" + r + "$").MatchString(s)` with no flags: `^`
and `$` match at the start and the end of the text only. -/
def Regexp.MatchString (r : Regexp) (s : GoString) : Bool :=
  (r.rests s).any List.isEmpty

/-- The pattern that `fmt.Sprintf` builds in `ValidateNumbers`, without its
anchors: `-?\d{1,3}` followed by `suffix`. The suffix is taken literally,
which is what the compiled pattern does for the two suffixes the package
passes, `Hz` and `%`. -/
def numberPattern (suffix : GoString) : Regexp :=
  .cat (Regexp.opt (Regexp.byte 45)) (.cat (Regexp.rep13 Regexp.digit) (Regexp.lit suffix))

/-- The digit loop of `strconv.Atoi`: `ch -= '0'` on a byte, failure when
`ch > 9`, else `n = n*10 + int(ch)`. -/
def atoiDigits : GoString → Int → Option Int
  | [], n => some n
  | ch :: s, n =>
    let d := (ch + 256 - 48) % 256
    if d > 9 then none else atoiDigits s (n * 10 + d)

/-- Go `strconv.ParseInt(s, 10, 0)` on a 64-bit platform: the value, and
whether the error is nil. A syntax error gives 0, a range error the nearest
bound. -/
def ParseInt10 (s0 : GoString) : Int × Bool :=
  if s0 = [] then (0, false)
  else
    let neg := decide (s0.head? = some 45)
    let s := if s0.head? = some 43 ∨ s0.head? = some 45 then s0.tail else s0
    match (if s = [] then none else atoiDigits s 0) with
    | none => (0, false)
    | some un =>
      if !neg ∧ un ≥ 2 ^ 63 then (2 ^ 63 - 1, false)
      else if neg ∧ un > 2 ^ 63 then (-(2 ^ 63), false)
      else (if neg then -un else un, true)

/-- Go `strconv.Atoi(s)` on a 64-bit platform: the value, and whether the
error is nil. Strings of 1 to 18 bytes take the fast path. -/
def Atoi (s0 : GoString) : Int × Bool :=
  if 0 < s0.length ∧ s0.length < 19 then
    let s := if s0.head? = some 45 ∨ s0.head? = some 43 then s0.tail else s0
    if s.length < 1 then (0, false)
    else
      match atoiDigits s 0 with
      | none => (0, false)
      | some n => (if s0.head? = some 45 then -n else n, true)
  else ParseInt10 s0

/-! ## Validation (`models.go`, `helper.go`) -/

def minValue : Int := -100

def maxValue : Int := 100

/-- Go `ValidateNumbers(value, suffix, errMsg)`; `none` is the nil error. -/
def ValidateNumbers (value suffix errMsg : GoString) : Option GoError :=
  if !(numberPattern suffix).MatchString value then
    Join [ErrInvalidInput, Errorf_s (str "invalid format: ") errMsg]
  else
    let numStr := TrimSuffix value suffix
    let num := (Atoi numStr).1
    if num < minValue ∨ num > maxValue then
      Join [ErrInvalidInput, Errorf_s (str "value out of range: ") errMsg]
    else
      none

/-- Go `strings.TrimSpace(s) == ""`: `s` is made of UTF-8 encodings of runes
for which `unicode.IsSpace` holds and of nothing else. These are the six
ASCII spaces (tab, LF, VT, FF, CR, space), U+0085 and U+00A0 (`C2 85`,
`C2 A0`), U+1680 (`E1 9A 80`), U+2000 to U+200A, U+2028, U+2029, U+202F
(`E2 80 80` to `E2 80 8A`, `E2 80 A8`, `E2 80 A9`, `E2 80 AF`), U+205F
(`E2 81 9F`) and U+3000 (`E3 80 80`). A byte that starts no such encoding is
never trimmed, so the trimmed string is then not empty. -/
def TrimSpaceIsEmpty : GoString → Bool
  | [] => true
  | 0xC2 :: b :: s => (b = 0x85 ∨ b = 0xA0) && TrimSpaceIsEmpty s
  | 0xE1 :: b :: c :: s => (b = 0x9A ∧ c = 0x80) && TrimSpaceIsEmpty s
  | 0xE2 :: b :: c :: s =>
    ((b = 0x80 ∧ ((0x80 ≤ c ∧ c ≤ 0x8A) ∨ c = 0xA8 ∨ c = 0xA9 ∨ c = 0xAF)) ∨
      (b = 0x81 ∧ c = 0x9F)) && TrimSpaceIsEmpty s
  | 0xE3 :: b :: c :: s => (b = 0x80 ∧ c = 0x80) && TrimSpaceIsEmpty s
  | a :: s => (a = 9 ∨ a = 10 ∨ a = 11 ∨ a = 12 ∨ a = 13 ∨ a = 32) && TrimSpaceIsEmpty s

/-- Go `Request` of `models.go`. -/
structure Request where
  Text : GoString
  Voice : GoString
  Pitch : GoString
  Rate : GoString
  Volume : GoString

/-- Go `VoiceRegistry`: the map `Voices`, as the value a lookup returns (the
zero value `false` for an absent key). The mutex is not modelled; the
registry is passed to the functions that read the global `ValidVoices`. -/
structure VoiceRegistry where
  Voices : GoString → Bool

/-- The initial value of `ValidVoices`: `make(map[string]bool)`. -/
def emptyRegistry : VoiceRegistry := ⟨fun _ => false⟩

/-- Go `(*VoiceRegistry).SetVoiceRegistry`: `vr.Voices[voice] = true`. -/
def VoiceRegistry.SetVoiceRegistry (vr : VoiceRegistry) (voice : GoString) : VoiceRegistry :=
  ⟨fun v => if v = voice then true else vr.Voices v⟩

/-- Go `(*VoiceRegistry).CheckVoiceRegistry`: `vr.Voices[voice]`. -/
def VoiceRegistry.CheckVoiceRegistry (vr : VoiceRegistry) (voice : GoString) : Bool :=
  vr.Voices voice

/-- Go `ValidateVoice(voice)`, reading the registry `vr`. -/
def ValidateVoice (vr : VoiceRegistry) (voice : GoString) : Option GoError :=
  if !vr.CheckVoiceRegistry voice then
    Join [ErrInvalidInput, Errorf_s (str "invalid voice: ") voice]
  else
    none

/-- Go `ValidateText(text)`. -/
def ValidateText (text : GoString) : Option GoError :=
  if TrimSpaceIsEmpty text then
    Join [ErrInvalidInput, New (str "text cannot be empty")]
  else
    none

/-- Go `ValidatePitch(pitch)`. -/
def ValidatePitch (pitch : GoString) : Option GoError :=
  ValidateNumbers pitch (str "Hz") (str "pitch must be between -100Hz and 100Hz")

/-- Go `ValidateRate(rate)`. -/
def ValidateRate (rate : GoString) : Option GoError :=
  ValidateNumbers rate (str "%") (str "rate must be between -100% and 100%")

/-- Go `ValidateVolume(volume)`. -/
def ValidateVolume (volume : GoString) : Option GoError :=
  ValidateNumbers volume (str "%") (str "volume must be between -100% and 100%")

/-- The statement `if err := check; err != nil { errs = append(errs, err) }`. -/
def appendIfErr (errs : List GoError) (check : Option GoError) : List GoError :=
  match check with
  | some err => errs ++ [err]
  | none => errs

/-- Go `(*Request).Validate`, reading the registry `vr`. -/
def Request.Validate (vr : VoiceRegistry) (r : Request) : Option GoError :=
  let errs : List GoError := []
  let errs := appendIfErr errs (ValidateVoice vr r.Voice)
  let errs := appendIfErr errs (ValidateText r.Text)
  let errs := appendIfErr errs (ValidatePitch r.Pitch)
  let errs := appendIfErr errs (ValidateRate r.Rate)
  let errs := appendIfErr errs (ValidateVolume r.Volume)
  if errs.length > 0 then Join errs else none

/-- Go `(*Request).SetRequestDefaults`: the request after the call. -/
def Request.SetRequestDefaults (r : Request) : Request :=
  let r := if r.Voice = [] then { r with Voice := str "en-US-AriaNeural" } else r
  let r := if r.Pitch = [] then { r with Pitch := str "0Hz" } else r
  let r := if r.Rate = [] then { r with Rate := str "0%" } else r
  let r := if r.Volume = [] then { r with Volume := str "0%" } else r
  let r := if !HasSuffix r.Rate (str "%") then { r with Rate := r.Rate ++ str "%" } else r
  let r := if !HasSuffix r.Volume (str "%") then { r with Volume := r.Volume ++ str "%" } else r
  let r := if !HasSuffix r.Pitch (str "Hz") then { r with Pitch := r.Pitch ++ str "Hz" } else r
  r

/-- The results of the five checks of `Validate`, in the order they run. -/
def fiveChecks (vr : VoiceRegistry) (r : Request) : List (Option GoError) :=
  [ValidateVoice vr r.Voice, ValidateText r.Text, ValidatePitch r.Pitch,
    ValidateRate r.Rate, ValidateVolume r.Volume]

/-- The number a sequence of ASCII decimal digits denotes. -/
def decimalValue (ds : List Nat) : Nat := ds.foldl (fun n d => 10 * n + (d - 48)) 0

/-- The signed integer denoted by an optional minus sign and digits. -/
def signedValue (neg : Bool) (ds : List Nat) : Int :=
  if neg then -(decimalValue ds : Int) else (decimalValue ds : Int)

/-- The strings the specification accepts for a numeric field with unit `u`:
an optional `-`, one to three ASCII decimal digits, then exactly `u`, with
the signed value in [-100, 100]. -/
def IsValidNumber (v u : GoString) : Prop :=
  ∃ (neg : Bool) (ds : List Nat), 1 ≤ ds.length ∧ ds.length ≤ 3 ∧
    (∀ d ∈ ds, 48 ≤ d ∧ d ≤ 57) ∧
    v = (if neg then [45] else []) ++ ds ++ u ∧
    -100 ≤ signedValue neg ds ∧ signedValue neg ds ≤ 100

/-! ## SSML (`service.go`) -/

/-- Go `(*Request).GetSSML`, reading the registry `vr`: the results
`(string, error)`. The call leaves the receiver as `r.SetRequestDefaults`.
`fmt.Sprintf` with `%s` inserts each string as it is. -/
def Request.GetSSML (vr : VoiceRegistry) (r : Request) : GoString × Option GoError :=
  let r := r.SetRequestDefaults
  match r.Validate vr with
  | some err => ([], some err)
  | none =>
    (str "<speak version=\x271.0\x27 xml:lang=\x27en-US\x27><voice name=\x27" ++ r.Voice ++
      str "\x27><prosody pitch=\x27" ++ r.Pitch ++ str "\x27 rate=\x27" ++ r.Rate ++
      str "\x27 volume=\x27" ++ r.Volume ++ str "\x27>" ++ r.Text ++
      str "</prosody></voice></speak>", none)

/-! ## Formatting numbers and times -/

/-- The decimal digits of `n`, most significant first, in front of `acc`;
`fuel` bounds the number of digits. -/
def digitsAux : Nat → Nat → List Nat → List Nat
  | 0, _, acc => acc
  | fuel + 1, n, acc =>
    if n < 10 then (48 + n) :: acc else digitsAux fuel (n / 10) ((48 + n % 10) :: acc)

/-- The decimal rendering of a natural number. -/
def natDigits (n : Nat) : GoString := digitsAux (n + 1) n []

/-- Go `fmt.Sprintf("%d", n)` for an `int`. -/
def Itoa (n : Int) : GoString :=
  if n < 0 then 45 :: natDigits n.natAbs else natDigits n.natAbs

/-- The decimal rendering of `n`, padded with zeros on the left to `width`
digits (the `appendInt` of package `time`). -/
def appendInt (n width : Nat) : GoString :=
  List.replicate (width - (natDigits n).length) 48 ++ natDigits n

/-- The civil date and time of a `time.Time` in UTC, as `time.Now().UTC()`
returns it. -/
structure UTCTime where
  year : Nat
  month : Nat
  day : Nat
  hour : Nat
  minute : Nat
  second : Nat

/-- Go `t.Format(time.RFC3339)` for a time in UTC. The layout is
`2006-01-02T15:04:05Z07:00`, whose zone element prints `Z` at offset zero. -/
def FormatRFC3339 (t : UTCTime) : GoString :=
  appendInt t.year 4 ++ str "-" ++ appendInt t.month 2 ++ str "-" ++ appendInt t.day 2 ++
    str "T" ++ appendInt t.hour 2 ++ str ":" ++ appendInt t.minute 2 ++ str ":" ++
    appendInt t.second 2 ++ str "Z"

/-! ## Outbound messages (`helper.go`) -/

/-- What `json.Marshal(config)` returns in `BuildTTSConfigMessage`: the
nested maps with their keys in sorted order. -/
def configJSON : GoString :=
  str ("\x7b\"context\":\x7b\"synthesis\":\x7b\"audio\":\x7b\"metadataoptions\":" ++
    "\x7b\"sentenceBoundaryEnabled\":false,\"wordBoundaryEnabled\":true\x7d," ++
    "\"outputFormat\":\"audio-24khz-48kbitrate-mono-mp3\"\x7d\x7d\x7d\x7d")

/-- Go `BuildTTSConfigMessage()`, with `now` the value of `time.Now().UTC()`. -/
def BuildTTSConfigMessage (now : UTCTime) : GoString :=
  str "X-Timestamp:" ++ FormatRFC3339 now ++
    str "Z\r\nContent-Type:application/json; charset=utf-8\r\nPath:speech.config\r\n\r\n" ++
    configJSON

/-- Go `BuildTTSSpeechMessage(reqID, ssml)`, with `now` the value of
`time.Now().UTC()`. -/
def BuildTTSSpeechMessage (now : UTCTime) (reqID ssml : GoString) : GoString :=
  str "X-RequestId:" ++ reqID ++ str "\r\nContent-Type:application/ssml+xml\r\nX-Timestamp:" ++
    FormatRFC3339 now ++ str "Z\r\nPath:ssml\r\n\r\n" ++ ssml

/-- The lines of a message: the pieces between consecutive `\r\n`. -/
def splitLines : GoString → List GoString
  | [] => [[]]
  | 13 :: 10 :: s => [] :: splitLines s
  | c :: s =>
    match splitLines s with
    | [] => [[c]]
    | l :: ls => (c :: l) :: ls

/-- The value of the first line of `msg` that starts with `key` and a colon. -/
def headerValue (key msg : GoString) : Option GoString :=
  (splitLines msg).findSome? fun l =>
    if HasPrefix l (key ++ [58]) then some (l.drop (key.length + 1)) else none

/-! ## The voice catalog (`service.go`) -/

/-- Go `Voice` of `models.go`. -/
structure Voice where
  Name : GoString
  ShortName : GoString
  Gender : GoString
  Locale : GoString

/-- What `http.Get(url)` returns: an error, or a response with its status
code and body. -/
inductive HTTPResult where
  | failure (err : GoError)
  | response (StatusCode : Int) (Body : GoBytes)

/-- Go `http.StatusOK` and the other status codes used. -/
def StatusOK : Int := 200

def StatusBadRequest : Int := 400

def StatusInternalServerError : Int := 500

def StatusServiceUnavailable : Int := 503

/-- Go `GetVoices()`. The outcome of `http.Get` is `get`; `decode` stands for
`json.NewDecoder(resp.Body).Decode(&voices)` of the standard library, giving
the decoded voices or the decoder's error. -/
def GetVoices (decode : GoBytes → Except GoError (List Voice)) (get : HTTPResult) :
    List Voice × Option GoError :=
  match get with
  | .failure err => ([], Join [ErrNetworkFailure, Errorf_w (str "failed to fetch voices: ") err])
  | .response StatusCode Body =>
    if StatusCode ≠ StatusOK then
      ([], Join [ErrServiceFailure,
        Errorf_s (str "service returned status ") (Itoa StatusCode)])
    else
      match decode Body with
      | .error err =>
        ([], Join [ErrServiceFailure, Errorf_w (str "failed to decode voices response: ") err])
      | .ok voices => (voices, none)

/-- A decoder for examples: it accepts the body `[]` as the empty list of
voices and fails on every other body. -/
def decodeEmptyArrayOnly (body : GoBytes) : Except GoError (List Voice) :=
  if body = str "[]" then .ok [] else .error (.external (str "invalid character") none)

/-! ## A synthesis call (`service.go`) -/

/-- What `websocket.DefaultDialer.Dial` returns: an error, with the status of
the handshake response when there is one, or a connection. A connection is
given by the results of the two `WriteMessage` calls and of the `ReadMessage`
calls that `Synthesize` may make on it. -/
inductive DialResult where
  | failure (status : Option Int) (err : GoError)
  | connected (configWrite speechWrite : Option GoError) (reads : Conn)

/-- Everything outside the request that a call of `Synthesize` depends on:
the registry, the identifier `uuid.New().String()`, the error of
`url.Parse(WssURL)` (the constant `WssURL` is declared outside the files at
hand), the outcome of the dial, and the clock readings of the two message
builders. -/
structure SynthesizeEnv where
  registry : VoiceRegistry
  reqID : GoString
  parseErr : Option GoError
  dial : DialResult
  configTime : UTCTime
  speechTime : UTCTime

/-- The results of a call of `Synthesize` and what it did on the way: the
messages it passed to `WriteMessage`, in order, and the number of
`ReadMessage` calls it made. -/
structure SynthesizeRun where
  result : AudioResult
  written : List GoString
  framesRead : Nat

/-- Go `(*Request).Synthesize` in the environment `env`; `none` when the call
never returns because the peer stays silent. -/
def Request.Synthesize (env : SynthesizeEnv) (r : Request) : Option SynthesizeRun :=
  match r.GetSSML env.registry with
  | (_, some err) => some ⟨([], some err), [], 0⟩
  | (ssml, none) =>
    match env.parseErr with
    | some err =>
      some ⟨([], Join [ErrServiceFailure, Errorf_w (str "invalid service URL: ") err]), [], 0⟩
    | none =>
      match env.dial with
      | .failure (some status) err =>
        some ⟨([], Join [ErrNetworkFailure,
          .wrapError (str "websocket connection failed with status " ++ Itoa status ++
            str ": " ++ err.Error) err]), [], 0⟩
      | .failure none err =>
        some ⟨([], Join [ErrNetworkFailure,
          Errorf_w (str "websocket connection failed: ") err]), [], 0⟩
      | .connected configWrite speechWrite reads =>
        let configMessage := BuildTTSConfigMessage env.configTime
        match configWrite with
        | some err =>
          some ⟨([], Join [ErrSynthesis, Errorf_w (str "failed to send config: ") err]),
            [configMessage], 0⟩
        | none =>
          let speechMessage := BuildTTSSpeechMessage env.speechTime env.reqID ssml
          match speechWrite with
          | some err =>
            some ⟨([], Join [ErrSynthesis, Errorf_w (str "failed to send SSML: ") err]),
              [configMessage, speechMessage], 0⟩
          | none =>
            match ReadAudioResponse reads with
            | none => none
            | some ((_, some err), rest) =>
              some ⟨([], some err), [configMessage, speechMessage], reads.length - rest.length⟩
            | some ((audio, none), rest) =>
              some ⟨(audio, none), [configMessage, speechMessage], reads.length - rest.length⟩

mutual
/-- Every error in the tree of `err`, in the order `errors.Is` visits them:
`err` itself, then what it wraps. -/
def GoError.chain : GoError → List GoError
  | .sentinel v => [.sentinel v]
  | .errorString s => [.errorString s]
  | .wrapError msg err => .wrapError msg err :: err.chain
  | .joinError errs => .joinError errs :: GoError.chainAll errs
  | .external msg closeCode => [.external msg closeCode]
/-- The trees of the members of a joined error, one after the other. -/
def GoError.chainAll : List GoError → List GoError
  | [] => []
  | e :: es => e.chain ++ GoError.chainAll es
end

/-! ## The HTTP handler (`cmd/api/routes.go`, `cmd/api/models.go`) -/

/-- Go `APIError` of `cmd/api/models.go`. -/
structure APIError where
  Code : Int
  Message : GoString
  Details : GoString

/-- What a handler writes: `c.JSON(code, body)` with an `APIError`, or
`c.Data(code, contentType, data)` after the `Content-Disposition` header. -/
inductive Response where
  | json (code : Int) (body : APIError)
  | data (code : Int) (contentDisposition contentType : GoString) (data : GoBytes)

/-- The HTTP status of a response. -/
def Response.code : Response → Int
  | .json code _ => code
  | .data code _ _ _ => code

/-- Go `(*Server).SendError`. -/
def SendError (code : Int) (message details : GoString) : Response :=
  .json code ⟨code, message, details⟩

/-- Go `(*Server).HandleSynthesize`: `bindErr` is the error of
`c.ShouldBindJSON(&req)` and `synth` the results of `req.Synthesize()`. The
log line of the default branch is not modelled. -/
def HandleSynthesize (bindErr : Option GoError) (synth : AudioResult) : Response :=
  match bindErr with
  | some err => SendError StatusBadRequest (str "Invalid request body") err.Error
  | none =>
    match synth with
    | (_, some err) =>
      if err.Is .invalidInput then
        SendError StatusBadRequest (str "Invalid synthesis request") err.Error
      else if err.Is .serviceFailure then
        SendError StatusServiceUnavailable (str "Speech service unavailable") err.Error
      else
        SendError StatusInternalServerError (str "Failed to synthesize speech") err.Error
    | (audioData, none) =>
      .data StatusOK (str "attachment; filename=speech.mp3") (str "audio/mp3") audioData

/-- Lines joined by `\r\n`. -/
def joinLines : List GoString → GoString
  | [] => []
  | [l] => l
  | l :: l2 :: ls => l ++ 13 :: 10 :: joinLines (l2 :: ls)

/-- The blank line that ends a header block, `"\r\n\r\n"`. -/
def blankLine : GoString := str "\r\n\r\n"

/-- The header lines of the speech message in the words of the
specification: request identifier, content type, timestamp, path. -/
def speechHeaderLines (now : UTCTime) (reqID : GoString) : List GoString :=
  [str "X-RequestId:" ++ reqID, str "Content-Type:application/ssml+xml",
    str "X-Timestamp:" ++ (FormatRFC3339 now ++ str "Z"), str "Path:ssml"]

/-! # Theorems -/

/-! ## Searching in byte sequences -/

theorem HasPrefix_iff (s p : GoBytes) : HasPrefix s p = true ↔ ∃ q, s = p ++ q := by
  induction s generalizing p with
  | nil =>
    cases p with
    | nil => simp [HasPrefix]
    | cons b p => simp [HasPrefix]
  | cons a s ih =>
    cases p with
    | nil => simp [HasPrefix]
    | cons b p =>
      simp only [HasPrefix, Bool.and_eq_true, beq_iff_eq, ih, List.cons_append, List.cons.injEq]
      constructor
      · rintro ⟨h, q, hq⟩
        exact ⟨q, h, hq⟩
      · rintro ⟨q, h, hq⟩
        exact ⟨h, q, hq⟩

theorem Index_append_self (sep q : GoBytes) : Index (sep ++ q) sep = some 0 := by
  have h : HasPrefix (sep ++ q) sep = true := (HasPrefix_iff _ _).2 ⟨q, rfl⟩
  cases hs : sep ++ q with
  | nil =>
    have : sep = [] := (List.append_eq_nil.1 hs).1
    simp [Index, this]
  | cons c t =>
    rw [hs] at h
    simp [Index, h]

theorem Index_le_of_occurrence (s sep : GoBytes) (i : Nat) (h : Index s sep = some i)
    (p q : GoBytes) (hs : s = p ++ sep ++ q) : i ≤ p.length := by
  induction s generalizing i p with
  | nil =>
    unfold Index at h
    split at h
    · cases h; exact Nat.zero_le _
    · cases h
  | cons c t ih =>
    unfold Index at h
    split at h
    · cases h; exact Nat.zero_le _
    · rename_i hpre
      cases hi : Index t sep with
      | none => simp [hi] at h
      | some j =>
        simp only [hi, Option.map_some', Option.some.injEq] at h
        cases p with
        | nil =>
          exfalso
          apply hpre
          rw [hs]
          exact (HasPrefix_iff _ _).2 ⟨q, by simp⟩
        | cons a p2 =>
          simp only [List.cons_append, List.cons.injEq] at hs
          have := ih j hi p2 hs.2
          simp only [List.length_cons]
          omega

theorem Index_none_no_occurrence (s sep : GoBytes) (h : Index s sep = none)
    (p q : GoBytes) : s ≠ p ++ sep ++ q := by
  induction s generalizing p with
  | nil =>
    unfold Index at h
    split at h
    · cases h
    · rename_i hsep
      intro hs
      apply hsep
      have h1 := List.append_eq_nil.1 hs.symm
      exact (List.append_eq_nil.1 h1.1).2
  | cons c t ih =>
    unfold Index at h
    split at h
    · cases h
    · rename_i hpre
      intro hs
      cases p with
      | nil =>
        apply hpre
        rw [hs]
        exact (HasPrefix_iff _ _).2 ⟨q, by simp⟩
      | cons a p2 =>
        simp only [List.cons_append, List.cons.injEq] at hs
        cases hi : Index t sep with
        | none => exact ih hi p2 hs.2
        | some j => simp [hi] at h

theorem Index_occurrence (s sep : GoBytes) (i : Nat) (h : Index s sep = some i) :
    ∃ q, s = s.take i ++ sep ++ q ∧ i ≤ s.length := by
  induction s generalizing i with
  | nil =>
    unfold Index at h
    split at h
    · rename_i hsep
      cases h
      exact ⟨[], by simp [hsep], Nat.le_refl _⟩
    · cases h
  | cons c t ih =>
    unfold Index at h
    split at h
    · rename_i hpre
      cases h
      obtain ⟨q, hq⟩ := (HasPrefix_iff _ _).1 hpre
      exact ⟨q, by simpa using hq, Nat.zero_le _⟩
    · cases hi : Index t sep with
      | none => simp [hi] at h
      | some j =>
        simp only [hi, Option.map_some', Option.some.injEq] at h
        obtain ⟨q, hq, hle⟩ := ih j hi
        subst h
        refine ⟨q, ?_, by simpa using hle⟩
        simp only [List.take_succ_cons, List.cons_append, List.cons.injEq, true_and]
        exact hq

theorem Index_of_FirstOccurrence (m sep p : GoBytes) (h : FirstOccurrence m sep p) :
    Index m sep = some p.length := by
  obtain ⟨⟨s, hs⟩, hmin⟩ := h
  cases hi : Index m sep with
  | none => exact absurd hs (Index_none_no_occurrence m sep hi p s)
  | some i =>
    have h1 := Index_le_of_occurrence m sep i hi p s hs
    obtain ⟨q, hq, hle⟩ := Index_occurrence m sep i hi
    have h2 := hmin (m.take i) q hq
    simp only [List.length_take] at h2
    congr 1
    omega

theorem Contains_append_self (sep q : GoBytes) : Contains (sep ++ q) sep = true := by
  simp [Contains, Index_append_self]

theorem audioOf_of_IsPayload (m b : GoBytes) (h : IsPayload m b) :
    audioOf (.message BinaryMessage m) = b := by
  rcases h with ⟨p, hm, hfirst⟩ | ⟨hno, hb⟩
  · have hi := Index_of_FirstOccurrence m audioMarker p hfirst
    have hd : List.drop (p.length + audioMarker.length) m = b := by
      rw [hm, List.append_assoc, List.drop_append]
      exact List.drop_left _ _
    simp [audioOf, Contains, SplitN2, hi, hd]
  · have hi : Index m audioMarker = none := by
      cases hi : Index m audioMarker with
      | none => rfl
      | some i =>
        obtain ⟨q, hq, _⟩ := Index_occurrence m audioMarker i hi
        exact absurd hq (hno _ _)
    simp [audioOf, Contains, hi, hb]

theorem IsPayload_marker_append (b : GoBytes) : IsPayload (audioMarker ++ b) b :=
  Or.inl ⟨[], rfl, ⟨b, rfl⟩, fun _ _ _ => Nat.zero_le _⟩

theorem audioOfAll_binary (ms payloads : List GoBytes) (h : List.Forall₂ IsPayload ms payloads) :
    audioOfAll (ms.map (ReadResult.message BinaryMessage)) = payloads.flatten := by
  induction h with
  | nil => rfl
  | cons hab _ ih =>
    simp only [audioOfAll, List.map_cons, List.flatten_cons] at ih ⊢
    rw [ih, audioOf_of_IsPayload _ _ hab]

/-! ## The read loop -/

theorem ReadAudioResponseFrom_keepsReading (pre : List ReadResult) (buf : GoBytes) (c : Conn)
    (hpre : ∀ r ∈ pre, keepsReading r = true) :
    ReadAudioResponseFrom buf (pre ++ c) = ReadAudioResponseFrom (buf ++ audioOfAll pre) c := by
  induction pre generalizing buf with
  | nil => simp [audioOfAll]
  | cons r pre ih =>
    have hr := hpre r (List.mem_cons_self _ _)
    have ih2 := fun b => ih b (fun x hx => hpre x (List.mem_cons_of_mem _ hx))
    cases r with
    | failure err => simp [keepsReading] at hr
    | message mt m =>
      show ReadAudioResponseFrom buf (.message mt m :: (pre ++ c)) = _
      simp only [ReadAudioResponseFrom]
      by_cases hb : mt = BinaryMessage
      · by_cases ha : Contains m audioMarker = true
        · simp only [hb, ha, if_true]
          rw [ih2]
          simp [audioOfAll, audioOf, ha, List.append_assoc]
        · simp only [hb, ha, if_true, if_false, Bool.false_eq_true]
          rw [ih2]
          simp [audioOfAll, audioOf, ha]
      · simp [keepsReading, hb] at hr
        simp only [hb, hr.1, hr.2, if_false, Bool.false_eq_true]
        rw [ih2]
        simp [audioOfAll, audioOf, hb]

theorem keepsReading_binary (ms : List GoBytes) :
    ∀ r ∈ ms.map (ReadResult.message BinaryMessage), keepsReading r = true := by
  intro r hr
  obtain ⟨m, _, rfl⟩ := List.mem_map.1 hr
  simp [keepsReading]

/-! ## Claims about `ReadAudioResponse` -/

/-- C1 (the code departs from the claim): on the stream that consists of the
single text frame `Path:turn.end`, `ReadAudioResponse` returns an empty audio
payload with a nil error; it does not fail with `ErrNoAudio`. -/
theorem C1_turn_end_only_returns_empty_success :
    ReadAudioResponse [.message TextMessage turnEndMarker] = some (([], none), []) := rfl

/-- C2: binary frames `ms` followed by a text frame that contains
`Path:turn.end` make `ReadAudioResponse` succeed with the concatenation, in
arrival order, of the payloads of `ms` (the bytes after the first occurrence
of `Path:audio\r\n`, nothing for a frame without it); and the frames
`Path:audio\r\n`+b1, `Path:audio\r\n`+b2, `Path:turn.end` yield `b1 ++ b2`. -/
theorem C2_audio_payloads_concatenated (ms payloads : List GoBytes) (t b1 b2 : GoBytes)
    (rest : Conn) (hp : List.Forall₂ IsPayload ms payloads)
    (ht : Contains t turnEndMarker = true) :
    ReadAudioResponse
        (ms.map (ReadResult.message BinaryMessage) ++ .message TextMessage t :: rest)
      = some ((payloads.flatten, none), rest) ∧
    ReadAudioResponse
        (.message BinaryMessage (audioMarker ++ b1) ::
          .message BinaryMessage (audioMarker ++ b2) ::
          .message TextMessage turnEndMarker :: rest)
      = some ((b1 ++ b2, none), rest) := by
  have key : ∀ (xs ps : List GoBytes) (u : GoBytes), List.Forall₂ IsPayload xs ps →
      Contains u turnEndMarker = true →
      ReadAudioResponse
        (xs.map (ReadResult.message BinaryMessage) ++ .message TextMessage u :: rest)
      = some ((ps.flatten, none), rest) := by
    intro xs ps u hxs hu
    unfold ReadAudioResponse
    rw [ReadAudioResponseFrom_keepsReading _ _ _ (keepsReading_binary xs),
      audioOfAll_binary xs ps hxs]
    simp [ReadAudioResponseFrom, hu, TextMessage, BinaryMessage]
  refine ⟨key ms payloads t hp ht, ?_⟩
  have h2 := key [audioMarker ++ b1, audioMarker ++ b2] [b1, b2] turnEndMarker
    (List.Forall₂.cons (IsPayload_marker_append b1)
      (List.Forall₂.cons (IsPayload_marker_append b2) List.Forall₂.nil))
    (by decide)
  simpa using h2

theorem C2_audio_payloads_concatenated_witness :
    List.Forall₂ IsPayload [[7, 7] ++ audioMarker ++ [1, 2], [9, 9]] [[1, 2], []] ∧
    Contains (turnEndMarker ++ [13, 10]) turnEndMarker = true ∧
    (ReadAudioResponse
        ([[7, 7] ++ audioMarker ++ [1, 2], [9, 9]].map (ReadResult.message BinaryMessage) ++
          [.message TextMessage (turnEndMarker ++ [13, 10]), .message TextMessage [1]])
      = some (([[1, 2], []].flatten, none), [.message TextMessage [1]]) ∧
    ReadAudioResponse
        [.message BinaryMessage (audioMarker ++ [3]),
          .message BinaryMessage (audioMarker ++ [4, 5]),
          .message TextMessage turnEndMarker, .message TextMessage [1]]
      = some (([3] ++ [4, 5], none), [.message TextMessage [1]])) :=
  have hp : List.Forall₂ IsPayload [[7, 7] ++ audioMarker ++ [1, 2], [9, 9]] [[1, 2], []] :=
    List.Forall₂.cons
      (Or.inl ⟨[7, 7], rfl, ⟨[1, 2], rfl⟩, fun p2 s2 h =>
        Index_le_of_occurrence _ audioMarker 2 (by decide) p2 s2 h⟩)
      (List.Forall₂.cons
        (Or.inr ⟨fun p s => Index_none_no_occurrence _ audioMarker (by decide) p s, rfl⟩)
        List.Forall₂.nil)
  ⟨hp, by decide,
    C2_audio_payloads_concatenated _ _ (turnEndMarker ++ [13, 10]) [3] [4, 5]
      [.message TextMessage [1]] hp (by decide)⟩

/-- C3: when a text frame `m` that contains `Path:error` and not
`Path:turn.end` arrives after read results that all keep the loop reading (no
closure, no receive failure, no earlier turn-end or error text frame),
`ReadAudioResponse` returns at that frame with no audio and an error that is
`ErrSynthesis` and whose text contains all of `m`, whatever was accumulated. -/
theorem C3_error_frame_fails_with_synthesis (pre : List ReadResult) (m : GoBytes) (rest : Conn)
    (hpre : ∀ r ∈ pre, keepsReading r = true)
    (herr : Contains m errorMarker = true) (hend : Contains m turnEndMarker = false) :
    ∃ err, ReadAudioResponse (pre ++ .message TextMessage m :: rest) = some (([], some err), rest) ∧
      err.Is .synthesis = true ∧ m <:+: err.Error := by
  refine ⟨.joinError [ErrSynthesis, Errorf_s (str "service error: ") m], ?_, rfl, ?_⟩
  · unfold ReadAudioResponse
    rw [ReadAudioResponseFrom_keepsReading _ _ _ hpre]
    simp [ReadAudioResponseFrom, herr, hend, TextMessage, BinaryMessage, Join]
  · refine ⟨ErrSynthesis.Error ++ 10 :: str "service error: ", [], ?_⟩
    simp [GoError.Error, GoError.ErrorJoin, Errorf_s]

theorem C3_error_frame_fails_with_synthesis_witness :
    (∀ r ∈ [ReadResult.message BinaryMessage (audioMarker ++ [1, 2, 3])], keepsReading r = true) ∧
    Contains (errorMarker ++ [13, 10, 98, 97, 100]) errorMarker = true ∧
    Contains (errorMarker ++ [13, 10, 98, 97, 100]) turnEndMarker = false ∧
    ∃ err, ReadAudioResponse
        ([ReadResult.message BinaryMessage (audioMarker ++ [1, 2, 3])] ++
          .message TextMessage (errorMarker ++ [13, 10, 98, 97, 100]) :: [])
        = some (([], some err), []) ∧
      err.Is .synthesis = true ∧ (errorMarker ++ [13, 10, 98, 97, 100]) <:+: err.Error :=
  ⟨by decide, by decide, by decide,
    C3_error_frame_fails_with_synthesis _ _ [] (by decide) (by decide) (by decide)⟩

/-- C4 as stated fails: a binary frame that contains `Path:turn.end` does not
end the read loop. On a stream that stops after it the function has not
returned, and a later frame (here a `Path:error` text frame) is read and
decides the result. -/
theorem C4_binary_turn_end_does_not_end_loop :
    ReadAudioResponse [.message BinaryMessage turnEndMarker] = none ∧
    ReadAudioResponse [.message BinaryMessage turnEndMarker, .message TextMessage errorMarker]
      = some (([], Join [ErrSynthesis, Errorf_s (str "service error: ") errorMarker]), []) :=
  ⟨rfl, rfl⟩

/-- C4 (amended): the first frame that is not binary and contains
`Path:turn.end`, when every read result before it keeps the loop reading,
ends the read loop: `ReadAudioResponse` returns at that frame, leaves every
later frame unread, and its results do not depend on the later frames. -/
theorem C4_text_turn_end_ends_loop (pre : List ReadResult) (messageType : Int) (m : GoBytes)
    (hpre : ∀ r ∈ pre, keepsReading r = true)
    (htype : messageType ≠ BinaryMessage) (hend : Contains m turnEndMarker = true) :
    ∃ res : AudioResult, ∀ rest : Conn,
      ReadAudioResponse (pre ++ .message messageType m :: rest) = some (res, rest) := by
  refine ⟨(audioOfAll pre, none), fun rest => ?_⟩
  unfold ReadAudioResponse
  rw [ReadAudioResponseFrom_keepsReading _ _ _ hpre]
  simp [ReadAudioResponseFrom, htype, hend]

theorem C4_text_turn_end_ends_loop_witness :
    (∀ r ∈ [ReadResult.message BinaryMessage (audioMarker ++ turnEndMarker)],
      keepsReading r = true) ∧
    TextMessage ≠ BinaryMessage ∧ Contains ([1] ++ turnEndMarker) turnEndMarker = true ∧
    ∃ res : AudioResult, ∀ rest : Conn,
      ReadAudioResponse
        ([ReadResult.message BinaryMessage (audioMarker ++ turnEndMarker)] ++
          .message TextMessage ([1] ++ turnEndMarker) :: rest)
      = some (res, rest) :=
  ⟨by decide, by decide, by decide,
    C4_text_turn_end_ends_loop _ TextMessage _ (by decide) (by decide) (by decide)⟩

/-- C5: frames that all keep the loop reading (none is a turn-end or error
text frame), followed by a normal closure from the peer (close code 1000),
lead to the completion check: the accumulated audio with a nil error when it
is not empty, `ErrNoAudio` when it is empty. The closure is not reported. -/
theorem C5_normal_closure_completion_check (pre : List ReadResult) (text : GoString)
    (rest : Conn) (hpre : ∀ r ∈ pre, keepsReading r = true) :
    ReadAudioResponse (pre ++ .failure (.external text (some CloseNormalClosure)) :: rest)
      = some ((if audioOfAll pre = [] then ([], some ErrNoAudio) else (audioOfAll pre, none)),
          rest) := by
  unfold ReadAudioResponse
  rw [ReadAudioResponseFrom_keepsReading _ _ _ hpre]
  simp [ReadAudioResponseFrom, IsCloseError, afterLoop]

theorem C5_normal_closure_completion_check_witness :
    (∀ r ∈ [ReadResult.message BinaryMessage (audioMarker ++ [1, 2]),
        ReadResult.message TextMessage (str "Path:turn.start")], keepsReading r = true) ∧
    ReadAudioResponse
        ([ReadResult.message BinaryMessage (audioMarker ++ [1, 2]),
            ReadResult.message TextMessage (str "Path:turn.start")] ++
          .failure (.external (str "websocket: close 1000 (normal)") (some CloseNormalClosure))
            :: [])
      = some ((if audioOfAll [ReadResult.message BinaryMessage (audioMarker ++ [1, 2]),
              ReadResult.message TextMessage (str "Path:turn.start")] = []
            then ([], some ErrNoAudio)
            else (audioOfAll [ReadResult.message BinaryMessage (audioMarker ++ [1, 2]),
              ReadResult.message TextMessage (str "Path:turn.start")], none)), []) :=
  ⟨by decide, C5_normal_closure_completion_check _ _ [] (by decide)⟩

/-! ## The pattern of `ValidateNumbers` -/

theorem mem_rests_byte (b : Nat) (s t : GoString) :
    t ∈ (Regexp.byte b).rests s ↔ s = b :: t := by
  cases s with
  | nil => simp [Regexp.rests]
  | cons c s =>
    by_cases h : c = b
    · simp [Regexp.rests, h, eq_comm]
    · simp [Regexp.rests, h]

theorem mem_rests_digit (s t : GoString) :
    t ∈ Regexp.digit.rests s ↔ ∃ d, (48 ≤ d ∧ d ≤ 57) ∧ s = d :: t := by
  cases s with
  | nil => simp [Regexp.rests]
  | cons c s =>
    by_cases h : 48 ≤ c ∧ c ≤ 57
    · simp only [Regexp.rests, h, and_self, if_true, List.mem_singleton, List.cons.injEq]
      constructor
      · rintro rfl
        exact ⟨c, h, rfl, rfl⟩
      · rintro ⟨d, _, _, h2⟩
        exact h2.symm
    · simp only [Regexp.rests, h, if_false, List.not_mem_nil, List.cons.injEq, false_iff]
      rintro ⟨d, hd, rfl, _⟩
      exact h hd

theorem mem_rests_cat (r1 r2 : Regexp) (s t : GoString) :
    t ∈ (Regexp.cat r1 r2).rests s ↔ ∃ m, m ∈ r1.rests s ∧ t ∈ r2.rests m := by
  simp [Regexp.rests, List.mem_flatMap]

theorem mem_rests_opt (r : Regexp) (s t : GoString) :
    t ∈ (Regexp.opt r).rests s ↔ t ∈ r.rests s ∨ t = s := by
  simp [Regexp.opt, Regexp.rests]

theorem mem_rests_lit (u s t : GoString) : t ∈ (Regexp.lit u).rests s ↔ s = u ++ t := by
  induction u generalizing s with
  | nil => simp [Regexp.lit, Regexp.rests, eq_comm]
  | cons b u ih =>
    simp only [Regexp.lit, mem_rests_cat, mem_rests_byte, ih, List.cons_append]
    constructor
    · rintro ⟨m, rfl, rfl⟩
      rfl
    · intro h
      exact ⟨u ++ t, h, rfl⟩

theorem mem_rests_rep13_digit (s t : GoString) :
    t ∈ (Regexp.rep13 Regexp.digit).rests s ↔
      ∃ ds : List Nat, 1 ≤ ds.length ∧ ds.length ≤ 3 ∧ (∀ d ∈ ds, 48 ≤ d ∧ d ≤ 57) ∧
        s = ds ++ t := by
  simp only [Regexp.rep13, mem_rests_cat, mem_rests_opt, mem_rests_digit]
  constructor
  · rintro ⟨m, ⟨a, ha, rfl⟩, h⟩
    rcases h with ⟨m2, ⟨b, hb, rfl⟩, h2⟩ | rfl
    · rcases h2 with ⟨c, hc, rfl⟩ | rfl
      · exact ⟨[a, b, c], by simp, by simp, by simp [ha, hb, hc], rfl⟩
      · exact ⟨[a, b], by simp, by simp, by simp [ha, hb], rfl⟩
    · exact ⟨[a], by simp, by simp, by simp [ha], rfl⟩
  · rintro ⟨ds, h1, h3, hd, rfl⟩
    match ds, h1, h3, hd with
    | [a], _, _, hd =>
      exact ⟨t, ⟨a, hd a (by simp), rfl⟩, Or.inr rfl⟩
    | [a, b], _, _, hd =>
      exact ⟨b :: t, ⟨a, hd a (by simp), rfl⟩,
        Or.inl ⟨t, ⟨b, hd b (by simp), rfl⟩, Or.inr rfl⟩⟩
    | [a, b, c], _, _, hd =>
      exact ⟨b :: c :: t, ⟨a, hd a (by simp), rfl⟩,
        Or.inl ⟨c :: t, ⟨b, hd b (by simp), rfl⟩, Or.inl ⟨c, hd c (by simp), rfl⟩⟩⟩
    | _ :: _ :: _ :: _ :: _, _, h3, _ => simp at h3

theorem MatchString_iff (r : Regexp) (s : GoString) :
    r.MatchString s = true ↔ [] ∈ r.rests s := by
  simp only [Regexp.MatchString, List.any_eq_true, List.isEmpty_iff]
  constructor
  · rintro ⟨x, hx, rfl⟩
    exact hx
  · intro h
    exact ⟨[], h, rfl⟩

theorem MatchString_numberPattern (u v : GoString) :
    (numberPattern u).MatchString v = true ↔
      ∃ (neg : Bool) (ds : List Nat), 1 ≤ ds.length ∧ ds.length ≤ 3 ∧
        (∀ d ∈ ds, 48 ≤ d ∧ d ≤ 57) ∧ v = (if neg then [45] else []) ++ ds ++ u := by
  simp only [MatchString_iff, numberPattern, mem_rests_cat, mem_rests_opt, mem_rests_byte,
    mem_rests_rep13_digit, mem_rests_lit]
  constructor
  · rintro ⟨m, hm, m2, ⟨ds, h1, h3, hd, rfl⟩, rfl⟩
    rcases hm with rfl | rfl
    · exact ⟨true, ds, h1, h3, hd, by simp⟩
    · exact ⟨false, ds, h1, h3, hd, by simp⟩
  · rintro ⟨neg, ds, h1, h3, hd, rfl⟩
    cases neg with
    | true => exact ⟨ds ++ u, Or.inl (by simp), u, ⟨ds, h1, h3, hd, by simp⟩, by simp⟩
    | false => exact ⟨ds ++ u, Or.inr (by simp), u, ⟨ds, h1, h3, hd, by simp⟩, by simp⟩

/-! ## Suffixes and number parsing -/

theorem HasSuffix_append (x u : GoString) : HasSuffix (x ++ u) u = true := by
  simp [HasSuffix]

theorem TrimSuffix_append (x u : GoString) : TrimSuffix (x ++ u) u = x := by
  simp [TrimSuffix, HasSuffix_append]

theorem atoiDigits_digits (ds : List Nat) (n : Nat) (hd : ∀ d ∈ ds, 48 ≤ d ∧ d ≤ 57) :
    atoiDigits ds (n : Int) = some ((ds.foldl (fun n d => 10 * n + (d - 48)) n : Nat) : Int) := by
  induction ds generalizing n with
  | nil => rfl
  | cons d ds ih =>
    have h := hd d (List.mem_cons_self _ _)
    have hmod : (d + 256 - 48) % 256 = d - 48 := by omega
    have hle : ¬ (d - 48 > 9) := by omega
    simp only [atoiDigits, hmod, hle, if_false, List.foldl_cons]
    have := ih (10 * n + (d - 48)) (fun x hx => hd x (List.mem_cons_of_mem _ hx))
    rw [← this]
    congr 1
    push_cast
    ring

theorem Atoi_signed_digits (neg : Bool) (ds : List Nat) (h1 : 1 ≤ ds.length)
    (h3 : ds.length ≤ 3) (hd : ∀ d ∈ ds, 48 ≤ d ∧ d ≤ 57) :
    Atoi ((if neg then [45] else []) ++ ds) = (signedValue neg ds, true) := by
  have hdig := atoiDigits_digits ds 0 hd
  simp only [Nat.cast_zero] at hdig
  cases ds with
  | nil => simp at h1
  | cons a ds =>
    have ha := hd a (List.mem_cons_self _ _)
    simp only [List.length_cons] at h3
    have h17 : ¬ 17 ≤ ds.length := by omega
    have h18 : ¬ 18 ≤ ds.length := by omega
    cases neg with
    | true => simp [Atoi, hdig, signedValue, decimalValue, h17]
    | false =>
      have h45 : a ≠ 45 := by omega
      have h43 : a ≠ 43 := by omega
      simp [Atoi, hdig, signedValue, decimalValue, h45, h43, h18]

/-! ## Claims about validation -/

/-- C6: for the units `Hz` and `%`, `ValidateNumbers(v, u, msg)` returns nil
exactly when `v` is an optional `-`, one to three ASCII decimal digits and
then `u`, with the signed value in [-100, 100]; for every other `v` it returns
an error that is `ErrInvalidInput`. -/
theorem C6_ValidateNumbers_accepts_exactly (v u msg : GoString)
    (_hu : u = str "Hz" ∨ u = str "%") :
    (ValidateNumbers v u msg = none ↔ IsValidNumber v u) ∧
    (¬ IsValidNumber v u →
      ∃ e, ValidateNumbers v u msg = some e ∧ e.Is .invalidInput = true) := by
  have hiff : ValidateNumbers v u msg = none ↔ IsValidNumber v u := by
    unfold ValidateNumbers IsValidNumber
    by_cases hm : (numberPattern u).MatchString v = true
    · obtain ⟨neg, ds, h1, h3, hd, hv⟩ := (MatchString_numberPattern u v).1 hm
      have hnum : (Atoi (TrimSuffix v u)).1 = signedValue neg ds := by
        rw [hv, TrimSuffix_append, Atoi_signed_digits neg ds h1 h3 hd]
      simp only [hm, Bool.not_true, Bool.false_eq_true, if_false, hnum, minValue, maxValue]
      constructor
      · intro h
        split at h
        · simp [Join] at h
        · rename_i hr
          exact ⟨neg, ds, h1, h3, hd, hv, by omega, by omega⟩
      · rintro ⟨neg2, ds2, _, _, _, hv2, hlo, hhi⟩
        have hsame : signedValue neg2 ds2 = signedValue neg ds := by
          have h2 : (Atoi (TrimSuffix v u)).1 = signedValue neg2 ds2 := by
            rw [hv2, TrimSuffix_append, Atoi_signed_digits neg2 ds2 ‹_› ‹_› ‹_›]
          rw [← h2, hnum]
        rw [hsame] at hlo hhi
        have hr : ¬ (signedValue neg ds < -100 ∨ signedValue neg ds > 100) := by omega
        simp [hr]
    · have hm2 : (numberPattern u).MatchString v = false := by simpa using hm
      simp only [hm2, Bool.not_false, if_true]
      constructor
      · intro h
        simp [Join] at h
      · rintro ⟨neg, ds, h1, h3, hd, hv, _, _⟩
        exact absurd ((MatchString_numberPattern u v).2 ⟨neg, ds, h1, h3, hd, hv⟩) hm
  refine ⟨hiff, fun hnot => ?_⟩
  have hne : ValidateNumbers v u msg ≠ none := fun h => hnot (hiff.1 h)
  unfold ValidateNumbers at hne ⊢
  by_cases hm : (!(numberPattern u).MatchString v) = true
  · simp only [hm, if_true]
    exact ⟨_, rfl, rfl⟩
  · by_cases hr : (Atoi (TrimSuffix v u)).1 < minValue ∨ (Atoi (TrimSuffix v u)).1 > maxValue
    · simp only [hm, hr, if_true, if_false]
      exact ⟨_, rfl, rfl⟩
    · simp [hm, hr] at hne

theorem C6_ValidateNumbers_accepts_exactly_witness :
    (str "Hz" = str "Hz" ∨ str "Hz" = str "%") ∧
    ((ValidateNumbers (str "-100Hz") (str "Hz") (str "pitch") = none ↔
        IsValidNumber (str "-100Hz") (str "Hz")) ∧
      (¬ IsValidNumber (str "-100Hz") (str "Hz") →
        ∃ e, ValidateNumbers (str "-100Hz") (str "Hz") (str "pitch") = some e ∧
          e.Is .invalidInput = true)) :=
  ⟨Or.inl rfl, C6_ValidateNumbers_accepts_exactly _ _ _ (Or.inl rfl)⟩

/-! ## The five checks of `Validate` -/

theorem Join_eq_some (errs : List GoError) (h : errs ≠ []) :
    Join errs = some (.joinError errs) := by
  cases errs with
  | nil => exact absurd rfl h
  | cons e es => rfl

theorem IsAny_of_mem (errs : List GoError) (target : ErrVar) (e : GoError) (he : e ∈ errs)
    (h : e.Is target = true) : GoError.IsAny errs target = true := by
  induction errs with
  | nil => simp at he
  | cons x xs ih =>
    rcases List.mem_cons.1 he with rfl | hx
    · simp [GoError.IsAny, h]
    · simp [GoError.IsAny, ih hx]

theorem ValidateNumbers_error_is (v u msg : GoString) (e : GoError)
    (h : ValidateNumbers v u msg = some e) : e.Is .invalidInput = true := by
  unfold ValidateNumbers at h
  by_cases hm : (!(numberPattern u).MatchString v) = true
  · simp only [hm, if_true] at h
    cases h
    rfl
  · by_cases hr : (Atoi (TrimSuffix v u)).1 < minValue ∨ (Atoi (TrimSuffix v u)).1 > maxValue
    · simp only [hm, hr, if_true, if_false] at h
      cases h
      rfl
    · simp [hm, hr] at h

theorem ValidateVoice_error_is (vr : VoiceRegistry) (voice : GoString) (e : GoError)
    (h : ValidateVoice vr voice = some e) : e.Is .invalidInput = true := by
  unfold ValidateVoice at h
  split at h
  · cases h
    rfl
  · cases h

theorem ValidateText_error_is (text : GoString) (e : GoError)
    (h : ValidateText text = some e) : e.Is .invalidInput = true := by
  unfold ValidateText at h
  split at h
  · cases h
    rfl
  · cases h

theorem fiveChecks_error_is (vr : VoiceRegistry) (r : Request) (e : GoError)
    (he : e ∈ (fiveChecks vr r).filterMap id) : e.Is .invalidInput = true := by
  simp only [fiveChecks, List.mem_filterMap, List.mem_cons, List.mem_singleton, id,
    List.not_mem_nil, or_false] at he
  obtain ⟨c, hc, hce⟩ := he
  rcases hc with rfl | rfl | rfl | rfl | rfl
  · exact ValidateVoice_error_is _ _ _ hce
  · exact ValidateText_error_is _ _ hce
  · exact ValidateNumbers_error_is _ _ _ _ hce
  · exact ValidateNumbers_error_is _ _ _ _ hce
  · exact ValidateNumbers_error_is _ _ _ _ hce

theorem Validate_eq_Join (vr : VoiceRegistry) (r : Request) :
    r.Validate vr = Join ((fiveChecks vr r).filterMap id) := by
  unfold Request.Validate fiveChecks
  cases ValidateVoice vr r.Voice <;> cases ValidateText r.Text <;>
    cases ValidatePitch r.Pitch <;> cases ValidateRate r.Rate <;>
    cases ValidateVolume r.Volume <;> simp [appendIfErr, Join]

/-- C7: `Validate` runs the five checks (voice, text, pitch, rate, volume)
without stopping at the first failure: it returns nil exactly when all five
pass, and otherwise one joined error whose members are the errors of the
failing checks, one each and in that order, each of them `ErrInvalidInput`. -/
theorem C7_Validate_collects_every_failure (vr : VoiceRegistry) (r : Request) :
    (r.Validate vr = none ↔ ∀ c ∈ fiveChecks vr r, c = none) ∧
    ((∃ c ∈ fiveChecks vr r, c ≠ none) →
      r.Validate vr = some (.joinError ((fiveChecks vr r).filterMap id))) ∧
    (∀ e ∈ (fiveChecks vr r).filterMap id, e.Is .invalidInput = true) := by
  have hnil : (fiveChecks vr r).filterMap id = [] ↔ ∀ c ∈ fiveChecks vr r, c = none := by
    simp [List.filterMap_eq_nil_iff]
  refine ⟨?_, ?_, fiveChecks_error_is vr r⟩
  · rw [Validate_eq_Join, ← hnil]
    constructor
    · intro h
      by_contra hne
      rw [Join_eq_some _ hne] at h
      cases h
    · intro h
      rw [h]
      rfl
  · rintro ⟨c, hc, hne⟩
    rw [Validate_eq_Join]
    apply Join_eq_some
    intro h
    exact hne (hnil.1 h c hc)

theorem C7_Validate_collects_every_failure_witness :
    (∃ c ∈ fiveChecks emptyRegistry ⟨str "hi", str "nobody", str "500Hz", str "0%", str "x%"⟩,
      c ≠ none) ∧
    (Request.Validate emptyRegistry ⟨str "hi", str "nobody", str "500Hz", str "0%", str "x%"⟩
      = some (.joinError
          ((fiveChecks emptyRegistry
            ⟨str "hi", str "nobody", str "500Hz", str "0%", str "x%"⟩).filterMap id))) ∧
    (fiveChecks emptyRegistry ⟨str "hi", str "nobody", str "500Hz", str "0%", str "x%"⟩).filterMap id
      = [.joinError [ErrInvalidInput, Errorf_s (str "invalid voice: ") (str "nobody")],
         .joinError [ErrInvalidInput,
           Errorf_s (str "value out of range: ") (str "pitch must be between -100Hz and 100Hz")],
         .joinError [ErrInvalidInput,
           Errorf_s (str "invalid format: ") (str "volume must be between -100% and 100%")]] :=
  have h : ∃ c ∈ fiveChecks emptyRegistry
      ⟨str "hi", str "nobody", str "500Hz", str "0%", str "x%"⟩, c ≠ none :=
    ⟨ValidateVoice emptyRegistry (str "nobody"), List.mem_cons_self _ _, fun h => by cases h⟩
  ⟨h, (C7_Validate_collects_every_failure _ _).2.1 h, rfl⟩

/-- C8: whenever the voice of a request, after defaulting, is not in the
registry, validation fails with an error that is `ErrInvalidInput`, whatever
the other fields are; and on the empty registry validation fails in this way
for every request, the default voice included. -/
theorem C8_unknown_voice_rejected (vr : VoiceRegistry) (r : Request)
    (h : vr.CheckVoiceRegistry r.SetRequestDefaults.Voice = false) :
    (∃ e, r.SetRequestDefaults.Validate vr = some e ∧ e.Is .invalidInput = true) ∧
    (∃ e, r.SetRequestDefaults.Validate emptyRegistry = some e ∧ e.Is .invalidInput = true) := by
  have key : ∀ (reg : VoiceRegistry) (q : Request), reg.CheckVoiceRegistry q.Voice = false →
      ∃ e, q.Validate reg = some e ∧ e.Is .invalidInput = true := by
    intro reg q hq
    have hv : ValidateVoice reg q.Voice
        = some (.joinError [ErrInvalidInput, Errorf_s (str "invalid voice: ") q.Voice]) := by
      simp [ValidateVoice, hq, Join]
    have hmem : GoError.joinError [ErrInvalidInput, Errorf_s (str "invalid voice: ") q.Voice]
        ∈ (fiveChecks reg q).filterMap id := by
      simp [fiveChecks, hv]
    refine ⟨.joinError ((fiveChecks reg q).filterMap id), ?_, ?_⟩
    · rw [Validate_eq_Join]
      exact Join_eq_some _ (List.ne_nil_of_mem hmem)
    · exact IsAny_of_mem _ _ _ hmem rfl
  exact ⟨key vr _ h, key emptyRegistry _ rfl⟩

theorem C8_unknown_voice_rejected_witness :
    (emptyRegistry.SetVoiceRegistry (str "en-US-GuyNeural")).CheckVoiceRegistry
      (Request.SetRequestDefaults ⟨str "hi", [], [], [], []⟩).Voice = false ∧
    ((∃ e, (Request.SetRequestDefaults ⟨str "hi", [], [], [], []⟩).Validate
        (emptyRegistry.SetVoiceRegistry (str "en-US-GuyNeural")) = some e ∧
        e.Is .invalidInput = true) ∧
     (∃ e, (Request.SetRequestDefaults ⟨str "hi", [], [], [], []⟩).Validate emptyRegistry
        = some e ∧ e.Is .invalidInput = true)) :=
  ⟨by decide, C8_unknown_voice_rejected _ _ (by decide)⟩

/-! ## Claims about `SetRequestDefaults` -/

theorem ite_Voice (c : Prop) [Decidable c] (t v a p ra vo : GoString) :
    (if c then Request.mk t a p ra vo else Request.mk t v p ra vo)
      = ⟨t, if c then a else v, p, ra, vo⟩ := by
  split <;> rfl

theorem ite_Pitch (c : Prop) [Decidable c] (t v a p ra vo : GoString) :
    (if c then Request.mk t v a ra vo else Request.mk t v p ra vo)
      = ⟨t, v, if c then a else p, ra, vo⟩ := by
  split <;> rfl

theorem ite_Rate (c : Prop) [Decidable c] (t v a p ra vo : GoString) :
    (if c then Request.mk t v p a vo else Request.mk t v p ra vo)
      = ⟨t, v, p, if c then a else ra, vo⟩ := by
  split <;> rfl

theorem ite_Volume (c : Prop) [Decidable c] (t v a p ra vo : GoString) :
    (if c then Request.mk t v p ra a else Request.mk t v p ra vo)
      = ⟨t, v, p, ra, if c then a else vo⟩ := by
  split <;> rfl

theorem SetRequestDefaults_eq (r : Request) :
    r.SetRequestDefaults =
      ⟨r.Text,
       if r.Voice = [] then str "en-US-AriaNeural" else r.Voice,
       if (!HasSuffix (if r.Pitch = [] then str "0Hz" else r.Pitch) (str "Hz")) = true
         then (if r.Pitch = [] then str "0Hz" else r.Pitch) ++ str "Hz"
         else (if r.Pitch = [] then str "0Hz" else r.Pitch),
       if (!HasSuffix (if r.Rate = [] then str "0%" else r.Rate) (str "%")) = true
         then (if r.Rate = [] then str "0%" else r.Rate) ++ str "%"
         else (if r.Rate = [] then str "0%" else r.Rate),
       if (!HasSuffix (if r.Volume = [] then str "0%" else r.Volume) (str "%")) = true
         then (if r.Volume = [] then str "0%" else r.Volume) ++ str "%"
         else (if r.Volume = [] then str "0%" else r.Volume)⟩ := by
  rcases r with ⟨t, v, p, ra, vo⟩
  unfold Request.SetRequestDefaults
  simp only [ite_Voice, ite_Pitch, ite_Rate, ite_Volume]

theorem HasSuffix_zero_Hz : HasSuffix (str "0Hz") (str "Hz") = true := by decide

theorem HasSuffix_zero_percent : HasSuffix (str "0%") (str "%") = true := by decide

/-- C9: after `SetRequestDefaults` an empty pitch has become `0Hz`, an empty
rate `0%`, an empty volume `0%`, and an empty voice `en-US-AriaNeural`. -/
theorem C9_empty_fields_get_defaults (r : Request) :
    (r.Pitch = [] → r.SetRequestDefaults.Pitch = str "0Hz") ∧
    (r.Rate = [] → r.SetRequestDefaults.Rate = str "0%") ∧
    (r.Volume = [] → r.SetRequestDefaults.Volume = str "0%") ∧
    (r.Voice = [] → r.SetRequestDefaults.Voice = str "en-US-AriaNeural") := by
  rw [SetRequestDefaults_eq]
  refine ⟨?_, ?_, ?_, ?_⟩ <;> intro h <;>
    simp [h, HasSuffix_zero_Hz, HasSuffix_zero_percent]

theorem C9_empty_fields_get_defaults_witness :
    (Request.mk (str "hi") [] [] [] []).Pitch = [] ∧
    (Request.mk (str "hi") [] [] [] []).Rate = [] ∧
    (Request.mk (str "hi") [] [] [] []).Volume = [] ∧
    (Request.mk (str "hi") [] [] [] []).Voice = [] ∧
    (Request.mk (str "hi") [] [] [] []).SetRequestDefaults.Pitch = str "0Hz" ∧
    (Request.mk (str "hi") [] [] [] []).SetRequestDefaults.Rate = str "0%" ∧
    (Request.mk (str "hi") [] [] [] []).SetRequestDefaults.Volume = str "0%" ∧
    (Request.mk (str "hi") [] [] [] []).SetRequestDefaults.Voice = str "en-US-AriaNeural" :=
  ⟨rfl, rfl, rfl, rfl,
    (C9_empty_fields_get_defaults ⟨str "hi", [], [], [], []⟩).1 rfl,
    (C9_empty_fields_get_defaults ⟨str "hi", [], [], [], []⟩).2.1 rfl,
    (C9_empty_fields_get_defaults ⟨str "hi", [], [], [], []⟩).2.2.1 rfl,
    (C9_empty_fields_get_defaults ⟨str "hi", [], [], [], []⟩).2.2.2 rfl⟩

/-- C10: `SetRequestDefaults` leaves a non-empty pitch, rate or volume as it
is when it already ends with its unit (`Hz`, `%`, `%`) and otherwise replaces
it by the value with the unit appended; it returns a request for every input
(no value is rejected), and it leaves the text and a non-empty voice as they
are. -/
theorem C10_unit_appended_when_missing (r : Request) :
    (r.Pitch ≠ [] → r.SetRequestDefaults.Pitch =
      if HasSuffix r.Pitch (str "Hz") then r.Pitch else r.Pitch ++ str "Hz") ∧
    (r.Rate ≠ [] → r.SetRequestDefaults.Rate =
      if HasSuffix r.Rate (str "%") then r.Rate else r.Rate ++ str "%") ∧
    (r.Volume ≠ [] → r.SetRequestDefaults.Volume =
      if HasSuffix r.Volume (str "%") then r.Volume else r.Volume ++ str "%") ∧
    r.SetRequestDefaults.Text = r.Text ∧
    (r.Voice ≠ [] → r.SetRequestDefaults.Voice = r.Voice) := by
  rw [SetRequestDefaults_eq]
  refine ⟨?_, ?_, ?_, rfl, ?_⟩
  · intro h
    by_cases hs : HasSuffix r.Pitch (str "Hz") = true <;> simp [h, hs]
  · intro h
    by_cases hs : HasSuffix r.Rate (str "%") = true <;> simp [h, hs]
  · intro h
    by_cases hs : HasSuffix r.Volume (str "%") = true <;> simp [h, hs]
  · intro h
    simp [h]

theorem C10_unit_appended_when_missing_witness :
    (Request.mk (str "a<b") (str "x") (str "5") (str "-20%") (str "7Hz")).Pitch ≠ [] ∧
    (Request.mk (str "a<b") (str "x") (str "5") (str "-20%") (str "7Hz")).Rate ≠ [] ∧
    (Request.mk (str "a<b") (str "x") (str "5") (str "-20%") (str "7Hz")).Volume ≠ [] ∧
    (Request.mk (str "a<b") (str "x") (str "5") (str "-20%") (str "7Hz")).Voice ≠ [] ∧
    (Request.mk (str "a<b") (str "x") (str "5") (str "-20%") (str "7Hz")).SetRequestDefaults.Pitch
      = str "5Hz" ∧
    (Request.mk (str "a<b") (str "x") (str "5") (str "-20%") (str "7Hz")).SetRequestDefaults.Rate
      = str "-20%" ∧
    (Request.mk (str "a<b") (str "x") (str "5") (str "-20%") (str "7Hz")).SetRequestDefaults.Volume
      = str "7Hz%" ∧
    (Request.mk (str "a<b") (str "x") (str "5") (str "-20%") (str "7Hz")).SetRequestDefaults.Voice
      = str "x" :=
  ⟨by decide, by decide, by decide, by decide,
    (C10_unit_appended_when_missing ⟨str "a<b", str "x", str "5", str "-20%", str "7Hz"⟩).1
      (by decide),
    (C10_unit_appended_when_missing ⟨str "a<b", str "x", str "5", str "-20%", str "7Hz"⟩).2.1
      (by decide),
    (C10_unit_appended_when_missing ⟨str "a<b", str "x", str "5", str "-20%", str "7Hz"⟩).2.2.1
      (by decide),
    (C10_unit_appended_when_missing ⟨str "a<b", str "x", str "5", str "-20%", str "7Hz"⟩).2.2.2.2
      (by decide)⟩

/-! ## Claims about `GetSSML`, the handler, `Synthesize` and `GetVoices` -/

/-- C11: when `GetSSML` succeeds, the document it returns is the fixed
`speak`/`voice`/`prosody` frame around the normalized voice, pitch, rate and
volume and the text of the request, byte for byte (no escaping, no trimming);
its error is that of validating the normalized request, so the result is a
function of the request and the registry. -/
theorem C11_GetSSML_document (vr : VoiceRegistry) (r : Request)
    (h : (r.GetSSML vr).2 = none) :
    (r.GetSSML vr).1 =
      str "<speak version=\x271.0\x27 xml:lang=\x27en-US\x27><voice name=\x27" ++
        r.SetRequestDefaults.Voice ++ str "\x27><prosody pitch=\x27" ++
        r.SetRequestDefaults.Pitch ++ str "\x27 rate=\x27" ++ r.SetRequestDefaults.Rate ++
        str "\x27 volume=\x27" ++ r.SetRequestDefaults.Volume ++ str "\x27>" ++ r.Text ++
        str "</prosody></voice></speak>" ∧
    r.SetRequestDefaults.Validate vr = none := by
  have htext : r.SetRequestDefaults.Text = r.Text := by rw [SetRequestDefaults_eq]
  revert h htext
  unfold Request.GetSSML
  generalize r.SetRequestDefaults = q
  intro h htext
  cases hv : q.Validate vr with
  | some err => simp [hv] at h
  | none => simp [hv, htext]

theorem C11_GetSSML_document_witness :
    (Request.GetSSML (emptyRegistry.SetVoiceRegistry (str "en-US-AriaNeural"))
      ⟨str " a<b & c ", [], str "5", [], []⟩).2 = none ∧
    (Request.GetSSML (emptyRegistry.SetVoiceRegistry (str "en-US-AriaNeural"))
      ⟨str " a<b & c ", [], str "5", [], []⟩).1 =
      str ("<speak version=\x271.0\x27 xml:lang=\x27en-US\x27>" ++
        "<voice name=\x27en-US-AriaNeural\x27>" ++
        "<prosody pitch=\x275Hz\x27 rate=\x270%\x27 volume=\x270%\x27>" ++
        " a<b & c </prosody></voice></speak>") :=
  ⟨rfl, (C11_GetSSML_document (emptyRegistry.SetVoiceRegistry (str "en-US-AriaNeural"))
    ⟨str " a<b & c ", [], str "5", [], []⟩ rfl).1⟩

/-- C12 as stated fails: an error that is `ErrNetworkFailure` (here the one
`Synthesize` returns when the dial fails) gets status 500, not 503. -/
theorem C12_network_failure_gets_500 :
    (GoError.joinError [ErrNetworkFailure,
        Errorf_w (str "websocket connection failed: ")
          (.external (str "dial tcp: connection refused") none)]).Is .networkFailure = true ∧
    (HandleSynthesize none ([], Join [ErrNetworkFailure,
        Errorf_w (str "websocket connection failed: ")
          (.external (str "dial tcp: connection refused") none)])).code = 500 := by
  decide

/-- C12 (amended): the status `HandleSynthesize` sends for a failed synthesis
is 400 when the error is `ErrInvalidInput`, else 503 when it is
`ErrServiceFailure`, else 500; so an error that is `ErrNetworkFailure`,
`ErrSynthesis` or `ErrNoAudio` and neither of the first two gets 500. -/
theorem C12_status_by_error (audio : GoBytes) (err : GoError) :
    (err.Is .invalidInput = true → (HandleSynthesize none (audio, some err)).code = 400) ∧
    (err.Is .invalidInput = false → err.Is .serviceFailure = true →
      (HandleSynthesize none (audio, some err)).code = 503) ∧
    (err.Is .invalidInput = false → err.Is .serviceFailure = false →
      (HandleSynthesize none (audio, some err)).code = 500) := by
  refine ⟨?_, ?_, ?_⟩
  · intro h
    simp [HandleSynthesize, h, SendError, Response.code, StatusBadRequest]
  · intro h1 h2
    simp [HandleSynthesize, h1, h2, SendError, Response.code, StatusServiceUnavailable]
  · intro h1 h2
    simp [HandleSynthesize, h1, h2, SendError, Response.code, StatusInternalServerError]

theorem C12_status_by_error_witness :
    ErrNoAudio.Is .invalidInput = false ∧ ErrNoAudio.Is .serviceFailure = false ∧
    (HandleSynthesize none ([], some ErrNoAudio)).code = 500 ∧
    (GoError.joinError [ErrInvalidInput, New (str "text cannot be empty")]).Is .invalidInput
      = true ∧
    (HandleSynthesize none
      ([], some (.joinError [ErrInvalidInput, New (str "text cannot be empty")]))).code = 400 ∧
    (GoError.joinError [ErrServiceFailure, New (str "x")]).Is .invalidInput = false ∧
    (GoError.joinError [ErrServiceFailure, New (str "x")]).Is .serviceFailure = true ∧
    (HandleSynthesize none
      ([], some (.joinError [ErrServiceFailure, New (str "x")]))).code = 503 :=
  ⟨rfl, rfl, (C12_status_by_error [] ErrNoAudio).2.2 rfl rfl,
    rfl, (C12_status_by_error [] _).1 rfl,
    rfl, rfl, (C12_status_by_error [] _).2.1 rfl rfl⟩

/-- C13: for a request that passes validation, when the service URL parses
and the dial fails with the error `err` (with or without a handshake status),
`Synthesize` returns no audio and an error that is `ErrNetworkFailure`, is not
`ErrSynthesis` (the dialer's error is none of the package's), and has `err`
in its tree; it writes no message and reads no frame. -/
theorem C13_dial_failure_is_network_failure (env : SynthesizeEnv) (r : Request)
    (status : Option Int) (err : GoError)
    (hvalid : (r.GetSSML env.registry).2 = none) (hparse : env.parseErr = none)
    (hdial : env.dial = .failure status err) (hext : err.Is .synthesis = false) :
    ∃ e, r.Synthesize env = some ⟨([], some e), [], 0⟩ ∧
      e.Is .networkFailure = true ∧ e.Is .synthesis = false ∧ err ∈ e.chain := by
  revert hvalid
  unfold Request.Synthesize
  generalize r.GetSSML env.registry = g
  rcases g with ⟨ssml, gerr⟩
  intro hvalid
  simp only at hvalid
  subst hvalid
  cases status with
  | none =>
    refine ⟨.joinError [ErrNetworkFailure,
      Errorf_w (str "websocket connection failed: ") err], ?_, ?_, ?_, ?_⟩
    · simp [hparse, hdial, Join]
    · rfl
    · simp [GoError.Is, GoError.IsAny, ErrNetworkFailure, Errorf_w, hext]
    · cases err <;> simp [GoError.chain, GoError.chainAll, Errorf_w, ErrNetworkFailure]
  | some code =>
    refine ⟨.joinError [ErrNetworkFailure,
      .wrapError (str "websocket connection failed with status " ++ Itoa code ++
        str ": " ++ err.Error) err], ?_, ?_, ?_, ?_⟩
    · simp [hparse, hdial, Join]
    · rfl
    · simp [GoError.Is, GoError.IsAny, ErrNetworkFailure, hext]
    · cases err <;> simp [GoError.chain, GoError.chainAll, ErrNetworkFailure]

theorem C13_dial_failure_is_network_failure_witness :
    (Request.GetSSML (emptyRegistry.SetVoiceRegistry (str "en-US-AriaNeural"))
      ⟨str "hi", [], [], [], []⟩).2 = none ∧
    (.external (str "websocket: bad handshake") none : GoError).Is .synthesis = false ∧
    ∃ e, Request.Synthesize
        ⟨emptyRegistry.SetVoiceRegistry (str "en-US-AriaNeural"), str "id-1", none,
          .failure (some 403) (.external (str "websocket: bad handshake") none),
          ⟨2024, 1, 2, 3, 4, 5⟩, ⟨2024, 1, 2, 3, 4, 6⟩⟩
        ⟨str "hi", [], [], [], []⟩ = some ⟨([], some e), [], 0⟩ ∧
      e.Is .networkFailure = true ∧ e.Is .synthesis = false ∧
      GoError.external (str "websocket: bad handshake") none ∈ e.chain :=
  ⟨rfl, rfl,
    C13_dial_failure_is_network_failure
      ⟨emptyRegistry.SetVoiceRegistry (str "en-US-AriaNeural"), str "id-1", none,
        .failure (some 403) (.external (str "websocket: bad handshake") none),
        ⟨2024, 1, 2, 3, 4, 5⟩, ⟨2024, 1, 2, 3, 4, 6⟩⟩
      ⟨str "hi", [], [], [], []⟩ (some 403) (.external (str "websocket: bad handshake") none)
      rfl rfl rfl rfl⟩

/-- C14: on a catalog response, `GetVoices` returns a nil error only when the
status is 200 and the body decodes, and then it returns the decoded voices;
for every other status, and for status 200 with a body that does not decode,
it returns no voices and an error that is `ErrServiceFailure`. -/
theorem C14_GetVoices_status_and_decode (decode : GoBytes → Except GoError (List Voice))
    (status : Int) (body : GoBytes) :
    ((GetVoices decode (.response status body)).2 = none ↔
      status = 200 ∧ ∃ vs, decode body = .ok vs) ∧
    (∀ vs, status = 200 → decode body = .ok vs →
      GetVoices decode (.response status body) = (vs, none)) ∧
    ((status ≠ 200 ∨ ∃ derr, decode body = .error derr) →
      ∃ e, GetVoices decode (.response status body) = ([], some e) ∧
        e.Is .serviceFailure = true) := by
  by_cases hs : status = 200
  · subst hs
    cases hd : decode body with
    | error derr =>
      refine ⟨?_, ?_, ?_⟩
      · simp [GetVoices, StatusOK, hd, Join]
      · intro vs _ h
        cases h
      · intro _
        exact ⟨.joinError [ErrServiceFailure,
          Errorf_w (str "failed to decode voices response: ") derr],
          by simp [GetVoices, StatusOK, hd, Join], rfl⟩
    | ok vs =>
      refine ⟨?_, ?_, ?_⟩
      · simp [GetVoices, StatusOK, hd]
      · intro vs2 _ h
        cases h
        simp [GetVoices, StatusOK, hd]
      · rintro (h | ⟨derr, h⟩)
        · exact absurd rfl h
        · cases h
  · refine ⟨?_, ?_, ?_⟩
    · simp [GetVoices, StatusOK, hs, Join]
    · intro vs h
      exact absurd h hs
    · intro _
      exact ⟨.joinError [ErrServiceFailure,
        Errorf_s (str "service returned status ") (Itoa status)],
        by simp [GetVoices, StatusOK, hs, Join], rfl⟩

theorem C14_GetVoices_status_and_decode_witness :
    ((200 : Int) = 200 ∧ decodeEmptyArrayOnly (str "[]") = .ok [] ∧
      GetVoices decodeEmptyArrayOnly (.response 200 (str "[]")) = ([], none)) ∧
    (((500 : Int) ≠ 200 ∨ ∃ derr, decodeEmptyArrayOnly (str "[]") = .error derr) ∧
      ∃ e, GetVoices decodeEmptyArrayOnly (.response 500 (str "[]")) = ([], some e) ∧
        e.Is .serviceFailure = true) ∧
    (((200 : Int) ≠ 200 ∨ ∃ derr, decodeEmptyArrayOnly (str "oops") = .error derr) ∧
      ∃ e, GetVoices decodeEmptyArrayOnly (.response 200 (str "oops")) = ([], some e) ∧
        e.Is .serviceFailure = true) :=
  ⟨⟨rfl, rfl,
      (C14_GetVoices_status_and_decode decodeEmptyArrayOnly 200 (str "[]")).2.1 [] rfl rfl⟩,
    ⟨Or.inl (by decide),
      (C14_GetVoices_status_and_decode decodeEmptyArrayOnly 500 (str "[]")).2.2
        (Or.inl (by decide))⟩,
    ⟨Or.inr ⟨.external (str "invalid character") none, rfl⟩,
      (C14_GetVoices_status_and_decode decodeEmptyArrayOnly 200 (str "oops")).2.2
        (Or.inr ⟨.external (str "invalid character") none, rfl⟩)⟩⟩

/-! ## Rendered numbers and times contain digits and punctuation only -/

theorem digitsAux_digits (fuel n : Nat) (acc : List Nat)
    (hacc : ∀ d ∈ acc, 48 ≤ d ∧ d ≤ 57) : ∀ d ∈ digitsAux fuel n acc, 48 ≤ d ∧ d ≤ 57 := by
  induction fuel generalizing n acc with
  | zero => simpa [digitsAux] using hacc
  | succ fuel ih =>
    unfold digitsAux
    split
    · intro d hd
      rcases List.mem_cons.1 hd with rfl | hd
      · omega
      · exact hacc d hd
    · apply ih
      intro d hd
      rcases List.mem_cons.1 hd with rfl | hd
      · omega
      · exact hacc d hd

theorem appendInt_digits (n width : Nat) : ∀ d ∈ appendInt n width, 48 ≤ d ∧ d ≤ 57 := by
  intro d hd
  rcases List.mem_append.1 hd with h | h
  · have := (List.mem_replicate.1 h).2
    omega
  · exact digitsAux_digits _ _ [] (by simp) d h

theorem FormatRFC3339_no_CR_LF (t : UTCTime) : 13 ∉ FormatRFC3339 t ∧ 10 ∉ FormatRFC3339 t := by
  have key : ∀ d ∈ FormatRFC3339 t, d ≠ 13 ∧ d ≠ 10 := by
    intro d hd
    have hp : ∀ x ∈ str "-" ++ str "T" ++ str ":" ++ str "Z", x ≠ 13 ∧ x ≠ 10 := by decide
    simp only [FormatRFC3339, List.mem_append] at hd
    have hdig : ∀ n w, d ∈ appendInt n w → d ≠ 13 ∧ d ≠ 10 := by
      intro n w h
      have := appendInt_digits n w d h
      omega
    have hpun : ∀ p, p ∈ [str "-", str "T", str ":", str "Z"] → d ∈ p → d ≠ 13 ∧ d ≠ 10 := by
      intro p hp2 hdp
      apply hp
      simp only [List.mem_cons, List.mem_singleton, List.not_mem_nil, or_false] at hp2
      rcases hp2 with rfl | rfl | rfl | rfl <;> simp [List.mem_append, hdp]
    rcases hd with (((((((((((h | h) | h) | h) | h) | h) | h) | h) | h) | h) | h) | h)
    · exact hdig _ _ h
    · exact hpun _ (by simp) h
    · exact hdig _ _ h
    · exact hpun _ (by simp) h
    · exact hdig _ _ h
    · exact hpun _ (by simp) h
    · exact hdig _ _ h
    · exact hpun _ (by simp) h
    · exact hdig _ _ h
    · exact hpun _ (by simp) h
    · exact hdig _ _ h
    · exact hpun _ (by simp) h
  exact ⟨fun h => (key 13 h).1 rfl, fun h => (key 10 h).2 rfl⟩

/-! ## The first blank line of a message -/

theorem Index_skip_no_CR (x t sep : GoBytes) (hx : 13 ∉ x) :
    Index (x ++ t) (13 :: sep) = (Index t (13 :: sep)).map (· + x.length) := by
  induction x with
  | nil => simp
  | cons c x ih =>
    have hc : c ≠ 13 := fun h => hx (h ▸ List.mem_cons_self _ _)
    have hx2 : 13 ∉ x := fun h => hx (List.mem_cons_of_mem _ h)
    have hpre : HasPrefix (c :: (x ++ t)) (13 :: sep) = false := by
      simp [HasPrefix, hc]
    rw [List.cons_append, Index, hpre, ih hx2]
    cases Index t (13 :: sep) with
    | none => rfl
    | some j => simp [Nat.add_assoc]

theorem Index_skip_CRLF (c : Nat) (t : GoBytes) (hc : c ≠ 13) :
    Index (13 :: 10 :: c :: t) blankLine = (Index (c :: t) blankLine).map (· + 2) := by
  have h1 : HasPrefix (13 :: 10 :: c :: t) blankLine = false := by
    simp [blankLine, str, HasPrefix, hc]
  have h2 : HasPrefix (10 :: c :: t) blankLine = false := by
    simp [blankLine, str, HasPrefix]
  rw [Index, h1, Index, h2]
  cases Index (c :: t) blankLine with
  | none => rfl
  | some j => rfl

theorem Index_blankLine_after_lines (lines : List GoString) (body : GoBytes)
    (hne : lines ≠ []) (hl : ∀ l ∈ lines, 13 ∉ l ∧ l ≠ []) :
    Index (joinLines lines ++ blankLine ++ body) blankLine = some (joinLines lines).length := by
  have hb : blankLine = 13 :: str "\n\r\n" := by decide
  induction lines with
  | nil => exact absurd rfl hne
  | cons l ls ih =>
    have hl1 := hl l (List.mem_cons_self _ _)
    cases ls with
    | nil =>
      simp only [joinLines]
      rw [List.append_assoc, hb, Index_skip_no_CR _ _ _ hl1.1, ← hb, Index_append_self]
      simp
    | cons l2 ls =>
      have hl2 := hl l2 (List.mem_cons_of_mem _ (List.mem_cons_self _ _))
      have ih2 := ih (by simp) (fun x hx => hl x (List.mem_cons_of_mem _ hx))
      obtain ⟨c, rest, hrest⟩ : ∃ c rest, joinLines (l2 :: ls) = c :: rest ∧ c ≠ 13 := by
        cases l2 with
        | nil => exact absurd rfl hl2.2
        | cons c l2 =>
          have hc : c ≠ 13 := fun h => hl2.1 (h ▸ List.mem_cons_self _ _)
          cases ls with
          | nil => exact ⟨c, l2, rfl, hc⟩
          | cons l3 ls => exact ⟨c, l2 ++ 13 :: 10 :: joinLines (l3 :: ls), rfl, hc⟩
      have hshape : joinLines (l :: l2 :: ls) ++ blankLine ++ body
          = l ++ 13 :: 10 :: c :: (rest ++ blankLine ++ body) := by
        simp [joinLines, hrest.1]
      have hinner : joinLines (l2 :: ls) ++ blankLine ++ body
          = c :: (rest ++ blankLine ++ body) := by
        simp [hrest.1]
      rw [hinner] at ih2
      rw [hshape]
      have hstep := Index_skip_no_CR l (13 :: 10 :: c :: (rest ++ blankLine ++ body))
        (str "\n\r\n") hl1.1
      rw [← hb] at hstep
      rw [hstep, Index_skip_CRLF _ _ hrest.2, ih2]
      simp [joinLines, hrest.1]
      omega

/-! ## Claims about the outbound messages -/

theorem speechHeaderLines_no_CR_LF (now : UTCTime) (reqID : GoString)
    (hcr : 13 ∉ reqID) (hlf : 10 ∉ reqID) :
    ∀ l ∈ speechHeaderLines now reqID, 13 ∉ l ∧ 10 ∉ l := by
  have ht := FormatRFC3339_no_CR_LF now
  have h1 : 13 ∉ str "X-RequestId:" ∧ 10 ∉ str "X-RequestId:" := by decide
  have h2 : 13 ∉ str "Content-Type:application/ssml+xml" ∧
      10 ∉ str "Content-Type:application/ssml+xml" := by decide
  have h3 : 13 ∉ str "X-Timestamp:" ∧ 10 ∉ str "X-Timestamp:" := by decide
  have h4 : 13 ∉ str "Path:ssml" ∧ 10 ∉ str "Path:ssml" := by decide
  have hz : 13 ∉ str "Z" ∧ 10 ∉ str "Z" := by decide
  intro l hl
  simp only [speechHeaderLines, List.mem_cons, List.mem_singleton, List.not_mem_nil,
    or_false] at hl
  rcases hl with rfl | rfl | rfl | rfl
  · simp [List.mem_append, h1, hcr, hlf]
  · exact h2
  · simp [List.mem_append, h3, ht, hz]
  · exact h4

theorem BuildTTSSpeechMessage_eq_lines (now : UTCTime) (reqID ssml : GoString) :
    BuildTTSSpeechMessage now reqID ssml
      = joinLines (speechHeaderLines now reqID) ++ blankLine ++ ssml := by
  have hB : str "\r\nContent-Type:application/ssml+xml\r\nX-Timestamp:"
      = 13 :: 10 :: (str "Content-Type:application/ssml+xml" ++ 13 :: 10 :: str "X-Timestamp:") := by
    decide
  have hC : str "Z\r\nPath:ssml\r\n\r\n" = str "Z" ++ 13 :: 10 :: (str "Path:ssml" ++ blankLine) := by
    decide
  simp only [BuildTTSSpeechMessage, speechHeaderLines, joinLines, hB, hC, List.append_assoc,
    List.cons_append]

/-- C15: for a request identifier without CR or LF (the timestamp rendering
never has one) and any SSML string, `BuildTTSSpeechMessage(reqID, ssml)` is
the four header lines `X-RequestId:<reqID>`, `Content-Type:application/ssml+xml`,
`X-Timestamp:<...>`, `Path:ssml` joined by CRLF, then a blank line, then
`ssml`; no header line contains CR or LF, and splitting the message at its
first `\r\n\r\n` gives the header block and `ssml`, blank lines inside `ssml`
included. -/
theorem C15_speech_message_frame (now : UTCTime) (reqID ssml : GoString)
    (hcr : 13 ∉ reqID) (hlf : 10 ∉ reqID) :
    BuildTTSSpeechMessage now reqID ssml
      = joinLines (speechHeaderLines now reqID) ++ blankLine ++ ssml ∧
    (speechHeaderLines now reqID).length = 4 ∧
    (∀ l ∈ speechHeaderLines now reqID, 13 ∉ l ∧ 10 ∉ l) ∧
    SplitN2 (BuildTTSSpeechMessage now reqID ssml) blankLine
      = [joinLines (speechHeaderLines now reqID), ssml] := by
  have hlines := speechHeaderLines_no_CR_LF now reqID hcr hlf
  have hne : ∀ l ∈ speechHeaderLines now reqID, 13 ∉ l ∧ l ≠ [] := by
    intro l hl
    refine ⟨(hlines l hl).1, ?_⟩
    simp only [speechHeaderLines, List.mem_cons, List.mem_singleton, List.not_mem_nil,
      or_false] at hl
    have e1 : str "X-RequestId:" ≠ [] := by decide
    have e2 : str "Content-Type:application/ssml+xml" ≠ [] := by decide
    have e3 : str "X-Timestamp:" ≠ [] := by decide
    have e4 : str "Path:ssml" ≠ [] := by decide
    rcases hl with rfl | rfl | rfl | rfl
    · simp [e1]
    · exact e2
    · simp [e3]
    · exact e4
  have hidx := Index_blankLine_after_lines (speechHeaderLines now reqID) ssml
    (by simp [speechHeaderLines]) hne
  refine ⟨BuildTTSSpeechMessage_eq_lines now reqID ssml, rfl, hlines, ?_⟩
  rw [BuildTTSSpeechMessage_eq_lines, SplitN2, hidx]
  have ht : List.take (joinLines (speechHeaderLines now reqID)).length
      (joinLines (speechHeaderLines now reqID) ++ blankLine ++ ssml)
      = joinLines (speechHeaderLines now reqID) := by
    rw [List.append_assoc]
    exact List.take_left _ _
  have hd : List.drop ((joinLines (speechHeaderLines now reqID)).length + blankLine.length)
      (joinLines (speechHeaderLines now reqID) ++ blankLine ++ ssml) = ssml := by
    rw [← List.length_append]
    exact List.drop_left _ _
  simp only [ht, hd]

theorem C15_speech_message_frame_witness :
    13 ∉ str "3f2a-77" ∧ 10 ∉ str "3f2a-77" ∧
    (BuildTTSSpeechMessage ⟨2024, 1, 2, 3, 4, 5⟩ (str "3f2a-77") (str "<speak>a\r\n\r\nb</speak>")
      = joinLines (speechHeaderLines ⟨2024, 1, 2, 3, 4, 5⟩ (str "3f2a-77")) ++ blankLine ++
          str "<speak>a\r\n\r\nb</speak>" ∧
    (speechHeaderLines ⟨2024, 1, 2, 3, 4, 5⟩ (str "3f2a-77")).length = 4 ∧
    (∀ l ∈ speechHeaderLines ⟨2024, 1, 2, 3, 4, 5⟩ (str "3f2a-77"), 13 ∉ l ∧ 10 ∉ l) ∧
    SplitN2 (BuildTTSSpeechMessage ⟨2024, 1, 2, 3, 4, 5⟩ (str "3f2a-77")
        (str "<speak>a\r\n\r\nb</speak>")) blankLine
      = [joinLines (speechHeaderLines ⟨2024, 1, 2, 3, 4, 5⟩ (str "3f2a-77")),
          str "<speak>a\r\n\r\nb</speak>"]) :=
  ⟨by decide, by decide,
    C15_speech_message_frame ⟨2024, 1, 2, 3, 4, 5⟩ (str "3f2a-77")
      (str "<speak>a\r\n\r\nb</speak>") (by decide) (by decide)⟩

theorem splitLines_skip (x t : GoString) (hx : 13 ∉ x) :
    splitLines (x ++ 13 :: 10 :: t) = x :: splitLines t := by
  induction x with
  | nil => simp [splitLines]
  | cons c x ih =>
    have hc : c ≠ 13 := fun h => hx (h ▸ List.mem_cons_self _ _)
    have hx2 : 13 ∉ x := fun h => hx (List.mem_cons_of_mem _ h)
    rw [List.cons_append, splitLines, ih hx2]
    intro a h
    exact absurd h hc

theorem HasPrefix_append_of_le (a x p : GoBytes) (h : p.length ≤ a.length) :
    HasPrefix (a ++ x) p = HasPrefix a p := by
  induction a generalizing p with
  | nil =>
    cases p with
    | nil => cases x <;> rfl
    | cons b p => simp at h
  | cons c a ih =>
    cases p with
    | nil => rfl
    | cons b p =>
      simp only [List.length_cons, Nat.add_le_add_iff_right] at h
      simp [HasPrefix, ih p h]

theorem headerValue_timestamp_cons (v : GoString) (ls : List GoString) :
    ((str "X-Timestamp:" ++ v) :: ls).findSome? (fun l =>
      if HasPrefix l (str "X-Timestamp" ++ [58]) then
        some (l.drop ((str "X-Timestamp").length + 1)) else none) = some v := by
  have hk : str "X-Timestamp" ++ [58] = str "X-Timestamp:" := by decide
  have hlen : (str "X-Timestamp").length + 1 = (str "X-Timestamp:").length := by decide
  have hp : HasPrefix (str "X-Timestamp:" ++ v) (str "X-Timestamp:") = true :=
    (HasPrefix_iff _ _).2 ⟨v, rfl⟩
  simp only [List.findSome?, hk, hp, if_true, hlen, List.drop_left]

/-- C16 as stated fails: at 2024-01-02 03:04:05 UTC the `X-Timestamp` value of
both messages is `2024-01-02T03:04:05ZZ`, which is not the RFC 3339 rendering
`2024-01-02T03:04:05Z` of that time: a second `Z` follows the zone
designator. -/
theorem C16_timestamp_has_second_Z :
    FormatRFC3339 ⟨2024, 1, 2, 3, 4, 5⟩ = str "2024-01-02T03:04:05Z" ∧
    headerValue (str "X-Timestamp") (BuildTTSConfigMessage ⟨2024, 1, 2, 3, 4, 5⟩)
      = some (str "2024-01-02T03:04:05ZZ") ∧
    headerValue (str "X-Timestamp")
        (BuildTTSSpeechMessage ⟨2024, 1, 2, 3, 4, 5⟩ (str "3f2a-77") (str "<speak></speak>"))
      = some (str "2024-01-02T03:04:05ZZ") ∧
    headerValue (str "X-Timestamp") (BuildTTSConfigMessage ⟨2024, 1, 2, 3, 4, 5⟩)
      ≠ some (FormatRFC3339 ⟨2024, 1, 2, 3, 4, 5⟩) ∧
    headerValue (str "X-Timestamp")
        (BuildTTSSpeechMessage ⟨2024, 1, 2, 3, 4, 5⟩ (str "3f2a-77") (str "<speak></speak>"))
      ≠ some (FormatRFC3339 ⟨2024, 1, 2, 3, 4, 5⟩) := by
  decide

/-- C16 (amended): in both outbound messages the value of the `X-Timestamp`
header is, for every send time, the RFC 3339 rendering of that time in UTC
(which ends in the zone designator `Z`) followed by one more literal `Z`, so
it ends in `ZZ`. For the speech message the request identifier is taken
without CR. -/
theorem C16_timestamp_is_rfc3339_plus_Z (now : UTCTime) (reqID ssml : GoString)
    (hcr : 13 ∉ reqID) :
    headerValue (str "X-Timestamp") (BuildTTSConfigMessage now)
      = some (FormatRFC3339 now ++ str "Z") ∧
    headerValue (str "X-Timestamp") (BuildTTSSpeechMessage now reqID ssml)
      = some (FormatRFC3339 now ++ str "Z") ∧
    HasSuffix (FormatRFC3339 now) (str "Z") = true ∧
    HasSuffix (FormatRFC3339 now ++ str "Z") (str "ZZ") = true := by
  have ht := FormatRFC3339_no_CR_LF now
  have hz : 13 ∉ str "Z" := by decide
  have hv : 13 ∉ str "X-Timestamp:" ++ (FormatRFC3339 now ++ str "Z") := by
    have h3 : 13 ∉ str "X-Timestamp:" := by decide
    simp [List.mem_append, h3, ht.1, hz]
  refine ⟨?_, ?_, ?_, ?_⟩
  · have hC : str "Z\r\nContent-Type:application/json; charset=utf-8\r\nPath:speech.config\r\n\r\n"
        = str "Z" ++ 13 :: 10 ::
          str "Content-Type:application/json; charset=utf-8\r\nPath:speech.config\r\n\r\n" := by
      decide
    have hm : BuildTTSConfigMessage now
        = (str "X-Timestamp:" ++ (FormatRFC3339 now ++ str "Z")) ++ 13 :: 10 ::
          (str "Content-Type:application/json; charset=utf-8\r\nPath:speech.config\r\n\r\n" ++
            configJSON) := by
      simp only [BuildTTSConfigMessage, hC, List.append_assoc, List.cons_append]
    rw [headerValue, hm, splitLines_skip _ _ hv]
    exact headerValue_timestamp_cons _ _
  · have h1 : 13 ∉ str "X-RequestId:" ++ reqID := by
      have h0 : 13 ∉ str "X-RequestId:" := by decide
      simp [List.mem_append, h0, hcr]
    have h2 : 13 ∉ str "Content-Type:application/ssml+xml" := by decide
    have hm : BuildTTSSpeechMessage now reqID ssml
        = (str "X-RequestId:" ++ reqID) ++ 13 :: 10 ::
          (str "Content-Type:application/ssml+xml" ++ 13 :: 10 ::
            ((str "X-Timestamp:" ++ (FormatRFC3339 now ++ str "Z")) ++ 13 :: 10 ::
              (str "Path:ssml" ++ blankLine ++ ssml))) := by
      rw [BuildTTSSpeechMessage_eq_lines]
      simp only [speechHeaderLines, joinLines, List.append_assoc, List.cons_append]
    have hk : str "X-Timestamp" ++ [58] = str "X-Timestamp:" := by decide
    have hp1 : HasPrefix (str "X-RequestId:" ++ reqID) (str "X-Timestamp:") = false := by
      rw [HasPrefix_append_of_le _ _ _ (by decide)]
      decide
    have hp2 : HasPrefix (str "Content-Type:application/ssml+xml") (str "X-Timestamp:")
        = false := by decide
    rw [headerValue, hm, splitLines_skip _ _ h1, splitLines_skip _ _ h2,
      splitLines_skip _ _ hv]
    rw [List.findSome?, hk, hp1, List.findSome?, hp2, ← hk]
    exact headerValue_timestamp_cons _ _
  · have hf : FormatRFC3339 now
        = (appendInt now.year 4 ++ str "-" ++ appendInt now.month 2 ++ str "-" ++
            appendInt now.day 2 ++ str "T" ++ appendInt now.hour 2 ++ str ":" ++
            appendInt now.minute 2 ++ str ":" ++ appendInt now.second 2) ++ str "Z" := rfl
    rw [hf]
    exact HasSuffix_append _ _
  · have hzz : str "Z" ++ str "Z" = str "ZZ" := by decide
    have hf : FormatRFC3339 now ++ str "Z"
        = (appendInt now.year 4 ++ str "-" ++ appendInt now.month 2 ++ str "-" ++
            appendInt now.day 2 ++ str "T" ++ appendInt now.hour 2 ++ str ":" ++
            appendInt now.minute 2 ++ str ":" ++ appendInt now.second 2) ++ str "ZZ" := by
      rw [← hzz, ← List.append_assoc]
      rfl
    rw [hf]
    exact HasSuffix_append _ _

theorem C16_timestamp_is_rfc3339_plus_Z_witness :
    13 ∉ str "3f2a-77" ∧
    (headerValue (str "X-Timestamp") (BuildTTSConfigMessage ⟨2026, 11, 4, 23, 59, 7⟩)
      = some (FormatRFC3339 ⟨2026, 11, 4, 23, 59, 7⟩ ++ str "Z") ∧
    headerValue (str "X-Timestamp")
        (BuildTTSSpeechMessage ⟨2026, 11, 4, 23, 59, 7⟩ (str "3f2a-77") (str "<speak></speak>"))
      = some (FormatRFC3339 ⟨2026, 11, 4, 23, 59, 7⟩ ++ str "Z") ∧
    HasSuffix (FormatRFC3339 ⟨2026, 11, 4, 23, 59, 7⟩) (str "Z") = true ∧
    HasSuffix (FormatRFC3339 ⟨2026, 11, 4, 23, 59, 7⟩ ++ str "Z") (str "ZZ") = true) :=
  ⟨by decide,
    C16_timestamp_is_rfc3339_plus_Z ⟨2026, 11, 4, 23, 59, 7⟩ (str "3f2a-77")
      (str "<speak></speak>") (by decide)⟩

end Speech
